import Mathlib

/-!
Verification of the AMBER trajectory codecs in
`package/MDAnalysis/coordinates/TRJ.py`.

The development shallowly embeds the two codec pairs of that module:

* the binary NCDF reader (`NCDFReader`) and writer (`NCDFWriter`), including
  schema validation, scale-factor quantisation and the lazily initialised
  writer state machine;
* the ASCII TRJ reader (`TRJReader`), including the box-detection probe,
  the line-oriented frame decoder and the frame-counting scan.

Machine floats are embedded as exact rationals; an on-disk container is a
record of attributes, dimensions and named variables, each variable holding
one slice of rationals per frame.  Fallible operations return `Except`.
-/

deriving instance DecidableEq for Except

namespace TRJSpec

/-- Errors raised by the embedded codecs.  Constructors mirror the Python
exception classes used by the source module. -/
inductive NCDFErr where
  | typeError (msg : String)
  | valueError (msg : String)
  | notImplementedError (msg : String)
  | indexError (msg : String)
  | ioError (msg : String)
  | keyError (msg : String)
deriving DecidableEq

/-- Embedding of `math.isclose(a, b)` with the default relative tolerance
`1e-9` and absolute tolerance `0`, over exact rationals. -/
def isclose (a b : ℚ) : Bool :=
  decide (|a - b| ≤ (1 / 1000000000 : ℚ) * max |a| |b|)

/-- Split a character list at every separator character, keeping empty
tokens: the embedding of Python `str.split(',')`. -/
def split_keep (sep : Char) : List Char → List (List Char)
  | [] => [[]]
  | c :: cs =>
    let rest := split_keep sep cs
    if c = sep then [] :: rest
    else
      match rest with
      | [] => [[c]]
      | t :: ts => (c :: t) :: ts

/-- Split a character list on whitespace runs, dropping empty tokens: the
embedding of Python `str.split()`. -/
def split_ws : List Char → List (List Char)
  | [] => []
  | c :: cs =>
    let rest := split_ws cs
    if c.isWhitespace then rest
    else
      match rest, cs with
      | t :: ts, c2 :: _ =>
        if c2.isWhitespace then [c] :: t :: ts else (c :: t) :: ts
      | _, _ => [c] :: rest

/-- The `Conventions` test of `NCDFReader.__init__`: the attribute must
contain the token `AMBER` in its comma-separated or whitespace-separated
token list. -/
def has_amber_token (s : String) : Bool :=
  (split_keep ',' s.data).contains "AMBER".data
    || (split_ws s.data).contains "AMBER".data

/-- One named variable of a binary container: its `units` attribute, its
optional `scale_factor` attribute, and one slice of values per frame. -/
structure NCDFVariable where
  units : Option String
  scale_factor : Option ℚ
  frames : List (List ℚ)
deriving DecidableEq

/-- A binary NCDF container: global attributes, dimensions and the table of
named variables. -/
structure NCDFFile where
  conventions : Option String
  conventionVersion : Option String
  program : Option String
  programVersion : Option String
  application : Option String
  title : Option String
  version_byte : Int
  dim_spatial : Option Nat
  dim_atom : Option Nat
  dim_frame : Option (Option Nat)
  var_table : List (String × NCDFVariable)
deriving DecidableEq

/-- Dictionary lookup in a variable table. -/
def lookup_variable (vars : List (String × NCDFVariable)) (name : String) :
    Option NCDFVariable :=
  match vars with
  | [] => none
  | (n, v) :: rest => if n = name then some v else lookup_variable rest name

/-- The `self.scale_factors` mapping of reader and writer: one optional
factor per scalable variable. -/
structure ScaleFactors where
  time : Option ℚ
  cell_lengths : Option ℚ
  cell_angles : Option ℚ
  coordinates : Option ℚ
  velocities : Option ℚ
  forces : Option ℚ
deriving DecidableEq

/-- The all-absent scale-factor mapping. -/
def noScale : ScaleFactors :=
  { time := none, cell_lengths := none, cell_angles := none,
    coordinates := none, velocities := none, forces := none }

/-- `self.scale_factors[name]`. -/
def scale_factor_of (sf : ScaleFactors) (name : String) : Option ℚ :=
  if name = "time" then sf.time
  else if name = "cell_lengths" then sf.cell_lengths
  else if name = "cell_angles" then sf.cell_angles
  else if name = "coordinates" then sf.coordinates
  else if name = "velocities" then sf.velocities
  else if name = "forces" then sf.forces
  else none

/-- `self.scale_factors[name] = value`. -/
def set_scale_factor (sf : ScaleFactors) (name : String) (v : ℚ) : ScaleFactors :=
  if name = "time" then { sf with time := some v }
  else if name = "cell_lengths" then { sf with cell_lengths := some v }
  else if name = "cell_angles" then { sf with cell_angles := some v }
  else if name = "coordinates" then { sf with coordinates := some v }
  else if name = "velocities" then { sf with velocities := some v }
  else if name = "forces" then { sf with forces := some v }
  else sf

/-- The membership test `variable in self.scale_factors` of the reader's
scale-factor discovery loop. -/
def known_scale_variable (name : String) : Bool :=
  name = "time" || name = "cell_lengths" || name = "cell_angles"
    || name = "coordinates" || name = "velocities" || name = "forces"

/-- The scaling arm of `NCDFReader._get_var_and_scale`: an absent or
near-1.0 factor passes the raw slice through, otherwise the raw values are
multiplied by the factor. -/
def apply_read_scale (sf : Option ℚ) (raw : List ℚ) : List ℚ :=
  match sf with
  | none => raw
  | some s => if isclose s 1 then raw else raw.map (fun x => x * s)

/-- The scaling arm of `NCDFWriter._set_frame_var_and_scale`: an absent or
near-1.0 factor stores the data unchanged, otherwise the outgoing values
are divided by the factor. -/
def apply_write_scale (sf : Option ℚ) (data : List ℚ) : List ℚ :=
  match sf with
  | none => data
  | some s => if isclose s 1 then data else data.map (fun x => x / s)

/-- Modelled from the spec: the unit-conversion factor tables of the
external `MDAnalysis` base classes.  `convert_*_to_native` multiplies a
quantity by its factor and `convert_*_from_native` divides by it; the
factors themselves live outside this module. -/
structure ConvTable where
  posF : ℚ
  timeF : ℚ
  velF : ℚ
  forceF : ℚ
deriving DecidableEq

/-- The state of an open `NCDFReader`: the validated schema data plus the
variable table of the open container handle. -/
structure NCDFReaderState where
  n_atoms : Nat
  n_frames : Nat
  remarks : String
  scale_factors : ScaleFactors
  has_velocities : Bool
  has_forces : Bool
  periodic : Bool
  convert_units : Bool
  var_table : List (String × NCDFVariable)
  current_frame : Nat
deriving DecidableEq

/-- A frame buffer (`Timestep`): positions and time always, velocities,
forces and the 6-value box optionally. -/
structure Timestep where
  n_atoms : Nat
  pos : List ℚ
  time : ℚ
  velocities : Option (List ℚ)
  forces : Option (List ℚ)
  dimensions : Option (List ℚ)
deriving DecidableEq

/-- `NCDFReader._get_var_and_scale`: fetch the slice of `name` at `frame`
from the open container and dequantise it. -/
def get_var_and_scale (st : NCDFReaderState) (name : String) (frame : Nat) :
    Except NCDFErr (List ℚ) :=
  match lookup_variable st.var_table name with
  | none => .error (.keyError name)
  | some v =>
    match v.frames.get? frame with
    | none => .error (.indexError "variable has no data at frame")
    | some raw => .ok (apply_read_scale (scale_factor_of st.scale_factors name) raw)

/-- Per-frame fetch of a variable whose slice must broadcast into a target
of `n` values (the shape discipline of the in-place array assignments of
`NCDFReader._read_frame`). -/
def fetch_shaped (st : NCDFReaderState) (name : String) (frame n : Nat) :
    Except NCDFErr (List ℚ) :=
  (get_var_and_scale st name frame).bind fun raw =>
    if raw.length ≠ n then .error (.valueError "slice shape mismatch")
    else .ok raw

/-- `NCDFReader._read_frame`: bounds-check the index, fetch and dequantise
every present variable, convert units if enabled and fill a frame buffer. -/
def read_frame_nc (tbl : ConvTable) (st : NCDFReaderState) (frame : Nat) :
    Except NCDFErr (NCDFReaderState × Timestep) :=
  if st.n_frames ≤ frame then
    .error (.indexError "frame index must be in range")
  else
    (fetch_shaped st "coordinates" frame (3 * st.n_atoms)).bind fun rawPos =>
    (get_var_and_scale st "time" frame).bind fun rawTime =>
    (match rawTime with
     | [t] => Except.ok t
     | _ => Except.error (NCDFErr.valueError "time shape mismatch")).bind fun t =>
    ((if st.has_velocities then
       (fetch_shaped st "velocities" frame (3 * st.n_atoms)).map some
     else .ok none : Except NCDFErr (Option (List ℚ)))).bind fun (vels : Option (List ℚ)) =>
    ((if st.has_forces then
       (fetch_shaped st "forces" frame (3 * st.n_atoms)).map some
     else .ok none : Except NCDFErr (Option (List ℚ)))).bind fun (fors : Option (List ℚ)) =>
    ((if st.periodic then
       (fetch_shaped st "cell_lengths" frame 3).bind fun lens =>
       (fetch_shaped st "cell_angles" frame 3).map fun angs =>
         some (lens ++ angs)
     else .ok none : Except NCDFErr (Option (List ℚ)))).bind fun (cell : Option (List ℚ)) =>
    let pos := if st.convert_units then rawPos.map (fun x => x / tbl.posF) else rawPos
    let time := if st.convert_units then t / tbl.timeF else t
    let vels : Option (List ℚ) := if st.convert_units then
        vels.map (fun (l : List ℚ) => l.map (fun x => x / tbl.velF)) else vels
    let fors : Option (List ℚ) := if st.convert_units then
        fors.map (fun (l : List ℚ) => l.map (fun x => x / tbl.forceF)) else fors
    let cell : Option (List ℚ) := if st.convert_units then
        cell.map (fun (l : List ℚ) => (l.take 3).map (fun x => x / tbl.posF) ++ l.drop 3)
      else cell
    .ok ({ st with current_frame := frame },
         { n_atoms := st.n_atoms, pos := pos, time := time,
           velocities := vels, forces := fors, dimensions := cell })

/-- `NCDFReader._get_dt`, over the stored (raw, unscaled) time values: the
difference of the first two entries; fewer than two entries raise the
recoverable `AttributeError` signal, embedded as `Except.error`. -/
def get_dt (times : List ℚ) : Except Unit ℚ :=
  match times.get? 1 with
  | none => .error ()
  | some t1 =>
    match times.get? 0 with
    | none => .error ()
    | some t0 => .ok (t1 - t0)

/-- Modelled from the spec: the caller-level `dt` of the external base
reader falls back to the default of 1.0 ps when `_get_dt` raises its
"unavailable" signal. -/
def reader_dt (times : List ℚ) : ℚ :=
  match get_dt times with
  | .ok d => d
  | .error _ => 1

/-- `self.trjfile.variables[name].units` with the `KeyError` of a missing
variable and the `AttributeError` of a missing attribute. -/
def variable_units (vars : List (String × NCDFVariable)) (name : String) :
    Except NCDFErr String :=
  match lookup_variable vars name with
  | none => .error (.keyError name)
  | some v =>
    match v.units with
    | none => .error (.keyError "units")
    | some u => .ok u

/-- `NCDFReader._verify_units`. -/
def verify_units (eval_unit expected : String) : Except NCDFErr Unit :=
  if eval_unit ≠ expected then
    .error (.notImplementedError "trajectory was written in unsupported units")
  else .ok ()

/-- Combined fetch-and-verify for a variable whose presence is optional. -/
def check_optional_units (vars : List (String × NCDFVariable))
    (name expected : String) (present : Bool) : Except NCDFErr Unit :=
  if present then
    match variable_units vars name with
    | .error e => .error e
    | .ok u => verify_units u expected
  else .ok ()

/-- The reader's scale-factor discovery loop: every variable carrying a
`scale_factor` attribute must be one of the six known scalable variables,
and its factor is recorded. -/
def collect_scale_factors :
    List (String × NCDFVariable) → ScaleFactors → Except NCDFErr ScaleFactors
  | [], acc => .ok acc
  | (name, v) :: rest, acc =>
    match v.scale_factor with
    | none => collect_scale_factors rest acc
    | some s =>
      if known_scale_variable name then
        collect_scale_factors rest (set_scale_factor acc name s)
      else .error (.notImplementedError "scale_factors for variable are not implemented")

/-- The warning text for a `ConventionVersion` mismatch. -/
def version_warning : String :=
  "NCDF trajectory format version differs from the reader version"

/-- The warning text for missing `program` or `programVersion` attributes. -/
def program_warning : String :=
  "NCDF trajectory may not fully adhere to AMBER standards"

/-- The 64-bit-offset test of `NCDFReader.__init__`. -/
def require_version_byte (c : NCDFFile) : Except NCDFErr Unit :=
  if c.version_byte ≠ 2 then
    .error (.typeError "NetCDF file does not use 64 bit offsets")
  else .ok ()

/-- The spatial-dimension test of `NCDFReader.__init__`. -/
def require_spatial (c : NCDFFile) : Except NCDFErr Nat :=
  match c.dim_spatial with
  | none => .error (.valueError "NCDF trajectory does not contain spatial dimension")
  | some sp =>
    if sp ≠ 3 then .error (.typeError "Incorrect spatial value for NCDF trajectory file")
    else .ok sp

/-- The atom-dimension test of `NCDFReader.__init__`, including the
caller-supplied atom-count cross-check. -/
def require_atom (c : NCDFFile) (n_atoms_arg : Option Nat) : Except NCDFErr Nat :=
  match c.dim_atom with
  | none => .error (.valueError "NCDF trajectory does not contain atom information")
  | some atomDim =>
    match n_atoms_arg with
    | some na =>
      if na ≠ atomDim then
        .error (.valueError "Supplied n_atoms does not match natom from ncdf")
      else .ok atomDim
    | none => .ok atomDim

/-- The frame-dimension test of `NCDFReader.__init__`: an indeterminate
(growable) frame dimension falls back to the length of the time variable. -/
def require_frame_dim (c : NCDFFile) : Except NCDFErr Nat :=
  match c.dim_frame with
  | none => .error (.valueError "NCDF trajectory does not contain frame information")
  | some (some fd) => .ok fd
  | some none =>
    match lookup_variable c.var_table "time" with
    | none => .error (.valueError "NCDF trajectory does not contain frame information")
    | some tv => .ok tv.frames.length

/-- The body of `NCDFReader.__init__` after the `Conventions` and
`ConventionVersion` checks: schema validation, scale-factor discovery,
optional-variable detection and the eager read of frame 0.  Never consults
the `conventionVersion` attribute. -/
def open_body (tbl : ConvTable) (c : NCDFFile) (n_atoms_arg : Option Nat)
    (convert_units : Bool) : Except NCDFErr (NCDFReaderState × List String) :=
  (require_version_byte c).bind fun _ =>
  (require_spatial c).bind fun _ =>
  let ws1 : List String :=
    if c.program.isNone || c.programVersion.isNone then [program_warning] else []
  (require_atom c n_atoms_arg).bind fun atomDim =>
  (require_frame_dim c).bind fun frameDim =>
  (variable_units c.var_table "time").bind fun tu =>
  (verify_units tu "picosecond").bind fun _ =>
  (variable_units c.var_table "coordinates").bind fun coordUnit =>
  (verify_units coordUnit "angstrom").bind fun _ =>
  (collect_scale_factors c.var_table noScale).bind fun sfs =>
  let hasVel := (lookup_variable c.var_table "velocities").isSome
  (check_optional_units c.var_table "velocities" "angstrom/picosecond"
      hasVel).bind fun _ =>
  let hasFor := (lookup_variable c.var_table "forces").isSome
  (check_optional_units c.var_table "forces" "kilocalorie/mole/angstrom"
      hasFor).bind fun _ =>
  let periodic := (lookup_variable c.var_table "cell_lengths").isSome
  (check_optional_units c.var_table "cell_lengths" "angstrom" periodic).bind fun _ =>
  (check_optional_units c.var_table "cell_angles" "degree" periodic).bind fun _ =>
  let st0 : NCDFReaderState :=
    { n_atoms := atomDim, n_frames := frameDim,
      remarks := c.title.getD "", scale_factors := sfs,
      has_velocities := hasVel, has_forces := hasFor,
      periodic := periodic, convert_units := convert_units,
      var_table := c.var_table, current_frame := 0 }
  (read_frame_nc tbl st0 0).bind fun p => .ok (p.1, ws1)

/-- `NCDFReader.__init__`: the `Conventions` token test (hard error), the
`ConventionVersion` equality test (warn only), then the remaining schema
validation and the eager read of frame 0.  Returns the reader state and
the emitted warnings. -/
def openNCDF (tbl : ConvTable) (c : NCDFFile) (n_atoms_arg : Option Nat)
    (convert_units : Bool) : Except NCDFErr (NCDFReaderState × List String) :=
  match c.conventions with
  | none => .error (.valueError "NCDF trajectory is missing Conventions")
  | some conv =>
    if ¬ has_amber_token conv then
      .error (.typeError "NCDF trajectory does not conform to AMBER specifications")
    else
      match c.conventionVersion with
      | none => .error (.valueError "NCDF trajectory is missing ConventionVersion")
      | some cv =>
        match open_body tbl c n_atoms_arg convert_units with
        | .error e => .error e
        | .ok (st, ws) =>
          .ok (st, (if cv ≠ "1.0" then [version_warning] else []) ++ ws)

/-- The state of an `NCDFWriter`: configuration recorded at construction,
plus the lazily created container. -/
structure NCDFWriterState where
  n_atoms : Int
  convert_units : Bool
  remarks : String
  first_frame : Bool
  trjfile : Option NCDFFile
  periodic : Option Bool
  has_velocities : Bool
  has_forces : Bool
  scale_factors : ScaleFactors
  curr_frame : Nat
deriving DecidableEq

/-- `NCDFWriter.__init__`: record the configuration; the only validation is
the `n_atoms == 0` test (the non-float scale-factor test is enforced by the
types of this embedding).  No file is touched. -/
def mkNCDFWriter (n_atoms : Int) (remarks : Option String)
    (convert_units velocities forces : Bool) (sf : ScaleFactors) :
    Except NCDFErr NCDFWriterState :=
  if n_atoms = 0 then
    .error (.valueError "NCDFWriter: no atoms in output trajectory")
  else
    .ok { n_atoms := n_atoms, convert_units := convert_units,
          remarks := remarks.getD
            "AMBER NetCDF format (MDAnalysis.coordinates.trj.NCDFWriter)",
          first_frame := true, trjfile := none, periodic := none,
          has_velocities := velocities, has_forces := forces,
          scale_factors := sf, curr_frame := 0 }

/-- Python truthiness of `if self.scale_factors[name]:` when the writer
decides whether to attach a `scale_factor` attribute: `None` and `0.0` are
falsy, every other float is truthy. -/
def scale_attr (s : Option ℚ) : Option ℚ :=
  match s with
  | none => none
  | some v => if v = 0 then none else some v

/-- `NCDFWriter._init_netcdf`: refuse to act on a closed writer, then build
the AMBER 1.0 schema (global attributes, dimensions and variables; the
cell, velocity and force variables only as configured). -/
def init_netcdf (w : NCDFWriterState) (periodic : Bool) :
    Except NCDFErr NCDFWriterState :=
  if ¬ w.first_frame then
    .error (.ioError "Attempt to write to closed file")
  else
    let baseVars : List (String × NCDFVariable) :=
      [("coordinates",
        { units := some "angstrom",
          scale_factor := scale_attr w.scale_factors.coordinates, frames := [] }),
       ("spatial", { units := none, scale_factor := none, frames := [] }),
       ("time",
        { units := some "picosecond",
          scale_factor := scale_attr w.scale_factors.time, frames := [] })]
    let cellVars : List (String × NCDFVariable) :=
      if periodic then
        [("cell_lengths",
          { units := some "angstrom",
            scale_factor := scale_attr w.scale_factors.cell_lengths, frames := [] }),
         ("cell_spatial", { units := none, scale_factor := none, frames := [] }),
         ("cell_angles",
          { units := some "degree",
            scale_factor := scale_attr w.scale_factors.cell_angles, frames := [] }),
         ("cell_angular", { units := none, scale_factor := none, frames := [] })]
      else []
    let velVars : List (String × NCDFVariable) :=
      if w.has_velocities then
        [("velocities",
          { units := some "angstrom/picosecond",
            scale_factor := scale_attr w.scale_factors.velocities, frames := [] })]
      else []
    let forceVars : List (String × NCDFVariable) :=
      if w.has_forces then
        [("forces",
          { units := some "kilocalorie/mole/angstrom",
            scale_factor := scale_attr w.scale_factors.forces, frames := [] })]
      else []
    let f : NCDFFile :=
      { conventions := some "AMBER", conventionVersion := some "1.0",
        program := some "MDAnalysis.coordinates.TRJ.NCDFWriter",
        programVersion := some "2.0.0", application := some "MDAnalysis",
        title := none, version_byte := 2,
        dim_spatial := some 3, dim_atom := some w.n_atoms.toNat,
        dim_frame := some none,
        var_table := baseVars ++ cellVars ++ velVars ++ forceVars }
    .ok { w with first_frame := false, trjfile := some f,
                 periodic := some periodic }

/-- Assignment `variable[i] = data` on a variable whose leading dimension is
unlimited: in-range indices overwrite, the index one past the end appends
(further indices pad with empty slices, as a growable record dimension
would). -/
def set_slice (v : NCDFVariable) (i : Nat) (data : List ℚ) : NCDFVariable :=
  if i < v.frames.length then { v with frames := v.frames.set i data }
  else
    { v with frames :=
        v.frames ++ List.replicate (i - v.frames.length) [] ++ [data] }

/-- `self.trjfile.variables[name][i] = data`. -/
def set_variable_slice (f : NCDFFile) (name : String) (i : Nat)
    (data : List ℚ) : NCDFFile :=
  { f with var_table :=
      f.var_table.map (fun p => if p.1 = name then (p.1, set_slice p.2 i data) else p) }

/-- `NCDFWriter._set_frame_var_and_scale`: quantise with the configured
scale factor and store at the current frame. -/
def set_frame_var_and_scale (w : NCDFWriterState) (f : NCDFFile)
    (name : String) (data : List ℚ) : NCDFFile :=
  set_variable_slice f name w.curr_frame
    (apply_write_scale (scale_factor_of w.scale_factors name) data)

/-- Modelled from the spec: the external base-class helper
`convert_dimensions_to_unitcell`, which converts the three box lengths to
native units and leaves the three angles untouched. -/
def convert_dimensions_to_unitcell (tbl : ConvTable) (dims : List ℚ) : List ℚ :=
  (dims.take 3).map (fun x => x * tbl.posF) ++ dims.drop 3

/-- `NCDFWriter._write_next_timestep`: convert units if enabled, store
coordinates and time always, the unit cell only if the schema is periodic,
velocities and forces only if configured, then advance the frame counter. -/
def write_next_timestep (tbl : ConvTable) (w : NCDFWriterState) (ts : Timestep) :
    Except NCDFErr NCDFWriterState :=
  match w.trjfile with
  | none => .error (.ioError "I/O operation on closed file")
  | some f0 =>
    let pos := if w.convert_units then ts.pos.map (fun x => x * tbl.posF) else ts.pos
    let time := if w.convert_units then ts.time * tbl.timeF else ts.time
    let unitcell : Option (List ℚ) :=
      if w.convert_units then ts.dimensions.map (convert_dimensions_to_unitcell tbl)
      else ts.dimensions
    let f1 := set_frame_var_and_scale w f0 "coordinates" pos
    let f2 := set_frame_var_and_scale w f1 "time" [time]
    match (if w.periodic = some true then
            match unitcell with
            | none => Except.error (NCDFErr.typeError "periodic schema but no dimensions")
            | some uc =>
              Except.ok (set_frame_var_and_scale w
                (set_frame_var_and_scale w f2 "cell_lengths" (uc.take 3))
                "cell_angles" (uc.drop 3))
          else Except.ok f2 : Except NCDFErr NCDFFile) with
    | .error e => .error e
    | .ok f3 =>
      match (if w.has_velocities then
              match ts.velocities with
              | none => Except.error (NCDFErr.valueError "no velocity data in timestep")
              | some v =>
                let vc := if w.convert_units then v.map (fun x => x * tbl.velF) else v
                Except.ok (set_frame_var_and_scale w f3 "velocities" vc)
            else Except.ok f3 : Except NCDFErr NCDFFile) with
      | .error e => .error e
      | .ok f4 =>
        match (if w.has_forces then
                match ts.forces with
                | none => Except.error (NCDFErr.valueError "no force data in timestep")
                | some fo =>
                  let fc := if w.convert_units then fo.map (fun x => x * tbl.forceF) else fo
                  Except.ok (set_frame_var_and_scale w f4 "forces" fc)
              else Except.ok f4 : Except NCDFErr NCDFFile) with
        | .error e => .error e
        | .ok f5 =>
          .ok { w with trjfile := some f5, curr_frame := w.curr_frame + 1 }

/-- `NCDFWriter._write_next_frame` (after the frame buffer has been
extracted from the source object): check the atom count, lazily initialise
the schema on the first write with the periodicity of this frame buffer,
then write the frame. -/
def write_next_frame (tbl : ConvTable) (w : NCDFWriterState) (ts : Timestep) :
    Except NCDFErr NCDFWriterState :=
  if (ts.n_atoms : Int) ≠ w.n_atoms then
    .error (.ioError "NCDFWriter: Timestep does not have the correct number of atoms")
  else
    match w.trjfile with
    | none =>
      match init_netcdf w ts.dimensions.isSome with
      | .error e => .error e
      | .ok w2 => write_next_timestep tbl w2 ts
    | some _ => write_next_timestep tbl w ts

/-- Sequential writing of a list of frame buffers. -/
def write_frames (tbl : ConvTable) :
    NCDFWriterState → List Timestep → Except NCDFErr NCDFWriterState
  | w, [] => .ok w
  | w, ts :: rest =>
    match write_next_frame tbl w ts with
    | .error e => .error e
    | .ok w2 => write_frames tbl w2 rest

/-- `NCDFWriter.close`: drop the container handle. -/
def closeWriter (w : NCDFWriterState) : NCDFWriterState :=
  { w with trjfile := none }

/-- Errors and signals of the ASCII TRJ reader.  `eofError` is the
distinguished end-of-stream signal; `stopIteration` is the uncaught
exception of a bare `next()` on an exhausted stream. -/
inductive TrjErr where
  | valueError
  | eofError
  | stopIteration
  | reshapeError
  | osError
deriving DecidableEq

/-- A line of an ASCII trajectory file, abstracted to the numeric fields it
carries (every modelled line is a non-empty text record). -/
abbrev Line := List ℚ

/-- `int(np.ceil(3.0 * n_atoms / 10))`: coordinate lines per frame for the
`10F8.3` format. -/
def lines_per_frame (n_atoms : Nat) : Nat := (3 * n_atoms + 9) / 10

/-- `3 * n_atoms % 10`: the field count of the short last coordinate line
(0 when every line is full). -/
def last_per_line (n_atoms : Nat) : Nat := 3 * n_atoms % 10

/-- Modelled from the spec: `util.FORTRANReader(kF8.3).read(line)` of the
external fixed-width decoder.  A line holding at least `k` numeric fields
yields its first `k` values; fewer raise the malformed-field `ValueError`.
-/
def fortran_read (k : Nat) (line : Line) : Except TrjErr Line :=
  if k ≤ line.length then .ok (line.take k) else .error .valueError

/-- Modelled from the spec: `FORTRANReader.number_of_matches` of the
`10F8.3` decoder — how many of the ten fixed-width slices parse as
numbers. -/
def number_of_matches (line : Line) : Nat := min line.length 10

/-- One iteration of the coordinate loop of `TRJReader._read_next_timestep`:
the default ten-field decode, retried with the short last-line decoder on a
malformed-field error. -/
def parse_frame_line (n_atoms : Nat) (line : Line) : Except TrjErr Line :=
  match fortran_read 10 line with
  | .ok xs => .ok xs
  | .error _ => fortran_read (last_per_line n_atoms) line

/-- The coordinate loop over the lines of one frame, concatenating the
decoded fields. -/
def parse_frame_lines (n_atoms : Nat) : List Line → Except TrjErr Line
  | [] => .ok []
  | l :: ls =>
    match parse_frame_line n_atoms l with
    | .error e => .error e
    | .ok xs =>
      match parse_frame_lines n_atoms ls with
      | .error e => .error e
      | .ok rest => .ok (xs ++ rest)

/-- The mutable reading state of a `TRJReader`: the periodicity flag fixed
at open time, the unread remainder of the file (after the title line), and
the current frame label. -/
structure TRJState where
  periodic : Bool
  pos : List Line
  frame : Int
deriving DecidableEq

/-- The per-frame output of the ASCII reader: the flat coordinate list and
the optional box (three lengths with the assumed 90-degree angles). -/
structure TRJFrame where
  coords : Line
  box : Option Line
deriving DecidableEq

/-- `TRJReader._read_next_timestep`: consume up to `lines_per_frame` lines
(an empty remainder is the end-of-stream signal), decode them, read one box
line when periodic (`next()` on an exhausted stream raises), then reshape
into `n_atoms` coordinate triples. -/
def read_next_timestep (n_atoms : Nat) (st : TRJState) :
    Except TrjErr (TRJState × TRJFrame) :=
  let lpf := lines_per_frame n_atoms
  let k := min lpf st.pos.length
  if k = 0 then .error .eofError
  else
    match parse_frame_lines n_atoms (st.pos.take k) with
    | .error e => .error e
    | .ok coords =>
      if st.periodic then
        match st.pos.drop k with
        | [] => .error .stopIteration
        | boxLine :: rest =>
          match fortran_read 3 boxLine with
          | .error e => .error e
          | .ok box3 =>
            if coords.length = 3 * n_atoms then
              .ok ({ st with pos := rest, frame := st.frame + 1 },
                   { coords := coords, box := some (box3 ++ [90, 90, 90]) })
            else .error .reshapeError
      else
        if coords.length = 3 * n_atoms then
          .ok ({ st with pos := st.pos.drop k, frame := st.frame + 1 },
               { coords := coords, box := none })
        else .error .reshapeError

/-- The warning emitted for a single-atom trajectory. -/
def single_atom_warning : String :=
  "Trajectory contains a single atom: assuming periodic=False"

/-- `TRJReader._detect_amber_box`: a single atom forces `periodic = False`
with one warning and no probe; otherwise read one trial frame without a
box, then inspect the next line — exactly three matching fields make the
file periodic.  The bare `next()` on a one-frame file raises. -/
def detect_amber_box (n_atoms : Nat) (lines : List Line) :
    Except TrjErr (Bool × Option Line × List String) :=
  if n_atoms = 1 then .ok (false, none, [single_atom_warning])
  else
    match read_next_timestep n_atoms
        { periodic := false, pos := lines, frame := -1 } with
    | .error e => .error e
    | .ok (st2, _) =>
      match st2.pos with
      | [] => .error .stopIteration
      | line :: _ =>
        if number_of_matches line = 3 then
          match fortran_read 3 line with
          | .error e => .error e
          | .ok box3 => .ok (true, some (box3 ++ [90, 90, 90]), [])
        else .ok (false, none, [])

/-- The title-line sanity check of `TRJReader.open_trajectory`. -/
def open_trajectory_check (header : String) : Except TrjErr Unit :=
  if 80 < (header.data.reverse.dropWhile Char.isWhitespace).length then
    .error .osError
  else .ok ()

/-- `TRJReader.__init__`: `n_atoms` is required; the box-detection pass runs
first (opening the file and checking the title), then the file is reopened
and the first frame is loaded.  Returns the reader state after the first
frame together with the warnings emitted. -/
def mkTRJReader (n_atoms_arg : Option Nat) (header : String) (lines : List Line) :
    Except TrjErr (TRJState × List String) :=
  match n_atoms_arg with
  | none => .error .valueError
  | some n =>
    if n = 1 then
      match open_trajectory_check header with
      | .error e => .error e
      | .ok _ =>
        match read_next_timestep n { periodic := false, pos := lines, frame := -1 } with
        | .error e => .error e
        | .ok (st, _) => .ok (st, [single_atom_warning])
    else
      match open_trajectory_check header with
      | .error e => .error e
      | .ok _ =>
        match detect_amber_box n lines with
        | .error e => .error e
        | .ok (p, _, ws) =>
          match read_next_timestep n { periodic := p, pos := lines, frame := -1 } with
          | .error e => .error e
          | .ok (st, _) => .ok (st, ws)

/-- The offset-collecting loop of `TRJReader._read_trj_n_frames`: the line
counter runs from 0 to the number of data lines inclusive, and an offset is
recorded whenever it is divisible by the (periodicity-adjusted) lines per
frame.  Returns the number of offsets recorded. -/
def scan_go (lpfT : Nat) : Nat → Nat → Nat
  | counter, 0 => if counter % lpfT = 0 then 1 else 0
  | counter, m + 1 =>
    (if counter % lpfT = 0 then 1 else 0) + scan_go lpfT (counter + 1) m

/-- `TRJReader._read_trj_n_frames`: scan the data lines, record the frame
offsets, and discard the final end-of-file offset. -/
def read_trj_n_frames (n_atoms : Nat) (periodic : Bool) (numDataLines : Nat) : Nat :=
  let lpfT := lines_per_frame n_atoms + (if periodic then 1 else 0)
  scan_go lpfT 0 numDataLines - 1

/-- Iterated sequential reading: `k` consecutive `_read_next_timestep`
calls, all of which must succeed. -/
def read_n_times (n_atoms : Nat) (st : TRJState) : Nat → Except TrjErr TRJState
  | 0 => .ok st
  | k + 1 =>
    match read_next_timestep n_atoms st with
    | .error e => .error e
    | .ok (st2, _) => read_n_times n_atoms st2 k

/-! ## Shared witness fixtures and basic lemmas -/

/-- The identity conversion table (native units equal to working units). -/
def tblOne : ConvTable := { posF := 1, timeF := 1, velF := 1, forceF := 1 }

/-- A minimal frame buffer with one atom and no optional data. -/
def tsSimple : Timestep :=
  { n_atoms := 1, pos := [10, 11, 12], time := 5,
    velocities := none, forces := none, dimensions := none }

/-- A writer constructed fresh with one atom, no conversion and no scale
factors (the successful result of `mkNCDFWriter 1 none false false false
noScale`). -/
def writerFresh : NCDFWriterState :=
  { n_atoms := 1, convert_units := false,
    remarks := "AMBER NetCDF format (MDAnalysis.coordinates.trj.NCDFWriter)",
    first_frame := true, trjfile := none, periodic := none,
    has_velocities := false, has_forces := false,
    scale_factors := noScale, curr_frame := 0 }

/-- One full coordinate line for a two-atom frame. -/
def lineSix : Line := [1, 2, 3, 4, 5, 6]

/-- A minimal conforming one-frame container (with a non-1.0
`ConventionVersion`, which must only warn). -/
def sampleNCDF : NCDFFile :=
  { conventions := some "AMBER", conventionVersion := some "2.0",
    program := some "sander", programVersion := some "99", application := none,
    title := none, version_byte := 2,
    dim_spatial := some 3, dim_atom := some 1, dim_frame := some (some 1),
    var_table :=
      [("coordinates", { units := some "angstrom", scale_factor := none,
                         frames := [[1, 2, 3]] }),
       ("time", { units := some "picosecond", scale_factor := none,
                  frames := [[0]] })] }

/-- The same container with its frame dimension and all data emptied. -/
def zeroFrameNCDF : NCDFFile :=
  { conventions := some "AMBER", conventionVersion := some "1.0",
    program := some "sander", programVersion := some "99", application := none,
    title := none, version_byte := 2,
    dim_spatial := some 3, dim_atom := some 1, dim_frame := some (some 0),
    var_table :=
      [("coordinates", { units := some "angstrom", scale_factor := none,
                         frames := [] }),
       ("time", { units := some "picosecond", scale_factor := none,
                  frames := [] })] }

/-- Replace the `ConventionVersion` attribute of a container. -/
def set_convention_version (c : NCDFFile) (v : String) : NCDFFile :=
  { c with conventionVersion := some v }

/-- The line-length profile of the coordinate lines of one complete frame:
full ten-field lines followed by the (possibly full) last line. -/
def coord_line_counts (n_atoms : Nat) : List Nat :=
  List.replicate (lines_per_frame n_atoms - 1) 10 ++
    [if last_per_line n_atoms = 0 then 10 else last_per_line n_atoms]

/-- A list of lines forming the complete coordinate record of one frame. -/
def IsCoordChunk (n_atoms : Nat) (chunk : List Line) : Prop :=
  chunk.map List.length = coord_line_counts n_atoms

/-- A list of lines forming one complete frame: its coordinate lines
followed, when the file is periodic, by one three-field box line. -/
def IsFrameChunk (n_atoms : Nat) (periodic : Bool) (chunk : List Line) : Prop :=
  ∃ c b, chunk = c ++ b ∧ IsCoordChunk n_atoms c ∧
    (if periodic then ∃ bl, b = [bl] ∧ bl.length = 3 else b = [])

/-- One step of the reader's scale-factor discovery loop for a known
variable: record the attribute when present. -/
def applyAttr (acc : ScaleFactors) (name : String) (sc : Option ℚ) : ScaleFactors :=
  match sc with
  | none => acc
  | some s => set_scale_factor acc name s

/-- The quantised coordinate slice the writer stores for one frame. -/
def out_pos_slice (tbl : ConvTable) (cu : Bool) (sf : ScaleFactors)
    (ts : Timestep) : List ℚ :=
  apply_write_scale sf.coordinates
    (if cu then ts.pos.map (fun x => x * tbl.posF) else ts.pos)

/-- The quantised one-element time slice the writer stores for one frame. -/
def out_time_slice (tbl : ConvTable) (cu : Bool) (sf : ScaleFactors)
    (ts : Timestep) : List ℚ :=
  apply_write_scale sf.time [if cu then ts.time * tbl.timeF else ts.time]

/-- The (possibly unit-converted) six-value cell record of one frame. -/
def out_dims (tbl : ConvTable) (cu : Bool) (ts : Timestep) : List ℚ :=
  (if cu then ts.dimensions.map (convert_dimensions_to_unitcell tbl)
   else ts.dimensions).getD []

/-- The quantised cell-length slice the writer stores for one frame. -/
def out_cell_lengths_slice (tbl : ConvTable) (cu : Bool) (sf : ScaleFactors)
    (ts : Timestep) : List ℚ :=
  apply_write_scale sf.cell_lengths ((out_dims tbl cu ts).take 3)

/-- The quantised cell-angle slice the writer stores for one frame. -/
def out_cell_angles_slice (tbl : ConvTable) (cu : Bool) (sf : ScaleFactors)
    (ts : Timestep) : List ℚ :=
  apply_write_scale sf.cell_angles ((out_dims tbl cu ts).drop 3)

/-- The quantised velocity slice the writer stores for one frame. -/
def out_vel_slice (tbl : ConvTable) (cu : Bool) (sf : ScaleFactors)
    (ts : Timestep) : List ℚ :=
  apply_write_scale sf.velocities
    (if cu then (ts.velocities.getD []).map (fun x => x * tbl.velF)
     else ts.velocities.getD [])

/-- The quantised force slice the writer stores for one frame. -/
def out_force_slice (tbl : ConvTable) (cu : Bool) (sf : ScaleFactors)
    (ts : Timestep) : List ℚ :=
  apply_write_scale sf.forces
    (if cu then (ts.forces.getD []).map (fun x => x * tbl.forceF)
     else ts.forces.getD [])

/-- The container an `NCDFWriter` with the given configuration has produced
after writing the frame buffers `tss`. -/
def written_file (tbl : ConvTable) (nA : Int) (cu : Bool) (sf : ScaleFactors)
    (vel fo p : Bool) (tss : List Timestep) : NCDFFile :=
  { conventions := some "AMBER", conventionVersion := some "1.0",
    program := some "MDAnalysis.coordinates.TRJ.NCDFWriter",
    programVersion := some "2.0.0", application := some "MDAnalysis",
    title := none, version_byte := 2,
    dim_spatial := some 3, dim_atom := some nA.toNat,
    dim_frame := some none,
    var_table :=
      [("coordinates",
        { units := some "angstrom", scale_factor := scale_attr sf.coordinates,
          frames := tss.map (out_pos_slice tbl cu sf) }),
       ("spatial", { units := none, scale_factor := none, frames := [] }),
       ("time",
        { units := some "picosecond", scale_factor := scale_attr sf.time,
          frames := tss.map (out_time_slice tbl cu sf) })]
      ++ (if p then
          [("cell_lengths",
            { units := some "angstrom",
              scale_factor := scale_attr sf.cell_lengths,
              frames := tss.map (out_cell_lengths_slice tbl cu sf) }),
           ("cell_spatial", { units := none, scale_factor := none, frames := [] }),
           ("cell_angles",
            { units := some "degree",
              scale_factor := scale_attr sf.cell_angles,
              frames := tss.map (out_cell_angles_slice tbl cu sf) }),
           ("cell_angular", { units := none, scale_factor := none, frames := [] })]
         else [])
      ++ (if vel then
          [("velocities",
            { units := some "angstrom/picosecond",
              scale_factor := scale_attr sf.velocities,
              frames := tss.map (out_vel_slice tbl cu sf) })]
         else [])
      ++ (if fo then
          [("forces",
            { units := some "kilocalorie/mole/angstrom",
              scale_factor := scale_attr sf.forces,
              frames := tss.map (out_force_slice tbl cu sf) })]
         else []) }

/-- A frame buffer consistent with a writer configured for `A` atoms and
the given optional-data flags. -/
def FrameConforms (A : Nat) (vel fo p : Bool) (ts : Timestep) : Prop :=
  ts.n_atoms = A ∧ ts.pos.length = 3 * A ∧
  ts.velocities.isSome = vel ∧ (∀ v, ts.velocities = some v → v.length = 3 * A) ∧
  ts.forces.isSome = fo ∧ (∀ v, ts.forces = some v → v.length = 3 * A) ∧
  ts.dimensions.isSome = p ∧ (∀ d, ts.dimensions = some d → d.length = 6)

/-- Every supplied scale factor is a positive quantisation divisor, as the
AMBER convention prescribes. -/
def ScaleFactorsPos (sf : ScaleFactors) : Prop :=
  (∀ v, sf.time = some v → 0 < v) ∧
  (∀ v, sf.cell_lengths = some v → 0 < v) ∧
  (∀ v, sf.cell_angles = some v → 0 < v) ∧
  (∀ v, sf.coordinates = some v → 0 < v) ∧
  (∀ v, sf.velocities = some v → 0 < v) ∧
  (∀ v, sf.forces = some v → 0 < v)

/-- The scale-factor mapping the reader's discovery loop accumulates over
the variables of a written container. -/
def collected_sf (sf : ScaleFactors) (vel fo p : Bool) : ScaleFactors :=
  let a1 := applyAttr noScale "coordinates" (scale_attr sf.coordinates)
  let a2 := applyAttr a1 "time" (scale_attr sf.time)
  let a3 := if p then
      applyAttr (applyAttr a2 "cell_lengths" (scale_attr sf.cell_lengths))
        "cell_angles" (scale_attr sf.cell_angles)
    else a2
  let a4 := if vel then applyAttr a3 "velocities" (scale_attr sf.velocities) else a3
  let a5 := if fo then applyAttr a4 "forces" (scale_attr sf.forces) else a4
  a5

/-- The reader state produced by opening a written container. -/
def written_reader (tbl : ConvTable) (A : Nat) (cu : Bool) (sf : ScaleFactors)
    (vel fo p : Bool) (tss : List Timestep) : NCDFReaderState :=
  { n_atoms := A, n_frames := tss.length, remarks := "",
    scale_factors := collected_sf sf vel fo p,
    has_velocities := vel, has_forces := fo, periodic := p, convert_units := cu,
    var_table := (written_file tbl (A : Int) cu sf vel fo p tss).var_table,
    current_frame := 0 }

/-- Quantising and then dequantising with the same registered factor is the
identity whenever the factor is positive (the spec's scale factors are
positive quantisation divisors); the reader sees the factor through the
`scale_factor` attribute the writer attached. -/
theorem apply_scale_roundtrip (s : Option ℚ) (hs : ∀ v, s = some v → 0 < v)
    (xs : List ℚ) :
    apply_read_scale (scale_attr s) (apply_write_scale s xs) = xs := by
  cases s with
  | none => rfl
  | some v =>
    have hv0 : v ≠ 0 := ne_of_gt (hs v rfl)
    cases hcl : isclose v 1 with
    | true => simp [scale_attr, apply_read_scale, apply_write_scale, hcl, hv0]
    | false =>
      simp only [scale_attr, apply_read_scale, apply_write_scale, hcl, hv0,
        Bool.false_eq_true, if_false, if_neg, List.map_map]
      have hid : ∀ x : ℚ, x / v * v = x := fun x => div_mul_cancel₀ x hv0
      simp [Function.comp_def, hid]

/-! ## Claim C2: scale-factor application semantics -/

/-- Claim C2: for every variable read or written by the binary codec, an
absent or numerically-near-1.0 scale factor (such as `1.0 + 1e-9`) passes
the stored value through unchanged on both sides, while any other factor
makes the reader multiply the raw stored value by it (a factor of 2.0 on a
stored 10.0 yields 20.0) and the writer divide the outgoing value by it. -/
theorem scale_factor_semantics (s : Option ℚ) (data : List ℚ) :
    ((s = none ∨ ∃ v, s = some v ∧ isclose v 1 = true) →
        apply_read_scale s data = data ∧ apply_write_scale s data = data) ∧
    (∀ v, s = some v → isclose v 1 = false →
        apply_read_scale s data = data.map (fun x => x * v) ∧
        apply_write_scale s data = data.map (fun x => x / v)) ∧
    isclose (1 + 1 / 1000000000) 1 = true ∧
    apply_read_scale (some 2) [10] = [20] := by
  have hclose : isclose (1 + 1 / 1000000000) 1 = true := by
    rw [isclose, decide_eq_true_eq]
    rw [abs_of_pos (by norm_num), abs_of_pos (by norm_num), abs_of_pos (by norm_num)]
    rw [max_eq_left (by norm_num)]
    norm_num
  have htwo : isclose 2 1 = false := by
    rw [isclose, decide_eq_false_iff_not]
    rw [abs_of_pos (by norm_num), abs_of_pos (by norm_num), abs_of_pos (by norm_num)]
    rw [max_eq_left (by norm_num)]
    norm_num
  refine ⟨?_, ?_, hclose, ?_⟩
  · rintro (rfl | ⟨v, rfl, hcl⟩)
    · exact ⟨rfl, rfl⟩
    · rw [apply_read_scale, apply_write_scale]
      simp [hcl]
  · rintro v rfl hcl
    rw [apply_read_scale, apply_write_scale]
    simp [hcl]
  · rw [apply_read_scale]
    simp only [htwo, if_false]
    norm_num

/-- Witness for C2 at the concrete inputs of the claim. -/
theorem scale_factor_semantics_witness :
    apply_read_scale (some 2) [10] = [20] ∧
    apply_read_scale none [10] = [10] ∧ apply_write_scale none [10] = [10] :=
  ⟨(scale_factor_semantics (some 2) [10]).2.2.2,
   (scale_factor_semantics none [10]).1 (Or.inl rfl)⟩

/-! ## Claim C5: single-atom trajectories are never periodic -/

/-- Claim C5: an ASCII reader built with `n_atoms = 1` forces
`periodic = false` and emits exactly one warning during the open-time
detection pass, and a reader whose periodicity flag is false never reads a
box (and the flag never changes). -/
theorem trj_single_atom (lines : List Line) :
    detect_amber_box 1 lines = .ok (false, none, [single_atom_warning]) ∧
    (∀ n_atoms st st2 fr, st.periodic = false →
        read_next_timestep n_atoms st = .ok (st2, fr) →
        fr.box = none ∧ st2.periodic = false) := by
  refine ⟨rfl, ?_⟩
  intro n st st2 fr hp h
  rw [read_next_timestep, hp] at h
  simp only [Bool.false_eq_true, if_false] at h
  split at h
  · exact absurd h (by simp)
  · split at h
    · exact absurd h (by simp)
    · split at h
      · rw [Except.ok.injEq, Prod.mk.injEq] at h
        obtain ⟨h1, h2⟩ := h
        refine ⟨?_, ?_⟩
        · rw [← h2]
        · rw [← h1]
      · exact absurd h (by simp)

/-- Witness for C5 at a concrete one-line file. -/
theorem trj_single_atom_witness :
    detect_amber_box 1 [[1, 2, 3]] = .ok (false, none, [single_atom_warning]) ∧
    (({ coords := [1, 2, 3], box := none } : TRJFrame).box = none ∧
     ({ periodic := false, pos := [], frame := 0 } : TRJState).periodic = false) :=
  ⟨(trj_single_atom [[1, 2, 3]]).1,
   (trj_single_atom [[1, 2, 3]]).2 1
     { periodic := false, pos := [[1, 2, 3]], frame := -1 }
     { periodic := false, pos := [], frame := 0 }
     { coords := [1, 2, 3], box := none } rfl rfl⟩

/-! ## Claim C7: `dt` derivation -/

/-- Claim C7: the `dt` derivation returns the difference of the first two
stored time values (times `[0, 2]` give `dt = 2`); with fewer than two
frames it raises the recoverable unavailable signal and the caller-level
default of 1.0 ps applies. -/
theorem ncdf_get_dt_spec :
    get_dt [0, 2] = .ok 2 ∧
    (∀ t0 t1 : ℚ, ∀ rest : List ℚ, get_dt (t0 :: t1 :: rest) = .ok (t1 - t0)) ∧
    (∀ times : List ℚ, times.length < 2 →
        get_dt times = .error () ∧ reader_dt times = 1) := by
  refine ⟨?_, fun t0 t1 rest => rfl, ?_⟩
  · show Except.ok ((2 : ℚ) - 0) = Except.ok 2
    norm_num
  · intro times h
    match times, h with
    | [], _ => exact ⟨rfl, rfl⟩
    | [t], _ => exact ⟨rfl, rfl⟩

/-- Witness for C7 at a concrete one-frame time list. -/
theorem ncdf_get_dt_spec_witness :
    get_dt [5] = .error () ∧ reader_dt [5] = 1 :=
  (ncdf_get_dt_spec).2.2 [5] (by decide)

/-! ## Claim C8: writer construction validation (corrected) -/

/-- Claim C8 counterexample: the claim requires every non-positive atom
count to be rejected, but the constructor only tests equality with zero —
an atom count of `-1` is accepted. -/
theorem ncdf_writer_negative_atoms_accepted :
    ((-1 : Int) ≤ 0) ∧
    (mkNCDFWriter (-1) none true false false noScale).isOk = true :=
  ⟨by decide, rfl⟩

/-- Claim C8 (amended): construction fails with an error exactly when the
supplied atom count equals 0, and construction never touches a file — a
successfully constructed writer holds no container and is still awaiting
its first frame. -/
theorem ncdf_writer_construction_spec (remarks : Option String)
    (cu vel fo : Bool) (sf : ScaleFactors) :
    mkNCDFWriter 0 remarks cu vel fo sf =
      .error (.valueError "NCDFWriter: no atoms in output trajectory") ∧
    (∀ nA w, mkNCDFWriter nA remarks cu vel fo sf = .ok w →
        w.trjfile = none ∧ w.first_frame = true ∧ w.curr_frame = 0) := by
  refine ⟨rfl, ?_⟩
  intro nA w h
  rw [mkNCDFWriter] at h
  split at h
  · exact absurd h (by simp)
  · rw [Except.ok.injEq] at h
    rw [← h]
    exact ⟨rfl, rfl, rfl⟩

/-- Witness for C8 at a concrete positive atom count. -/
theorem ncdf_writer_construction_spec_witness :
    ∃ w, mkNCDFWriter 3 none true false false noScale = .ok w ∧
      w.trjfile = none ∧ w.first_frame = true ∧ w.curr_frame = 0 := by
  refine ⟨_, rfl, ?_⟩
  exact (ncdf_writer_construction_spec none true false false noScale).2 3 _ rfl

/-! ## Claim C6: a closed writer rejects further writes -/

/-- A successful `_init_netcdf` requires a writer awaiting its first frame
and leaves a writer that is not. -/
theorem init_netcdf_ok_fields (w : NCDFWriterState) (p : Bool)
    (w2 : NCDFWriterState) (h : init_netcdf w p = .ok w2) :
    w.first_frame = true ∧ w2.first_frame = false ∧ w2.n_atoms = w.n_atoms := by
  simp only [init_netcdf] at h
  split at h
  · exact absurd h (by simp)
  · rename_i hff
    refine ⟨?_, ?_, ?_⟩
    · revert hff
      cases w.first_frame <;> simp
    · rw [Except.ok.injEq] at h
      rw [← h]
    · rw [Except.ok.injEq] at h
      rw [← h]

/-- `_write_next_timestep` never changes the first-frame flag or the atom
count. -/
theorem write_next_timestep_ok_fields (tbl : ConvTable) (w : NCDFWriterState)
    (ts : Timestep) (w2 : NCDFWriterState)
    (h : write_next_timestep tbl w ts = .ok w2) :
    w2.first_frame = w.first_frame ∧ w2.n_atoms = w.n_atoms := by
  simp only [write_next_timestep] at h
  split at h
  · exact absurd h (by simp)
  · split at h
    · exact absurd h (by simp)
    · split at h
      · exact absurd h (by simp)
      · split at h
        · exact absurd h (by simp)
        · rw [Except.ok.injEq] at h
          rw [← h]
          exact ⟨rfl, rfl⟩

/-- One successful `_write_next_frame` preserves the atom count, and leaves
the first-frame flag cleared whenever the writer had no open container or
had already cleared it. -/
theorem write_next_frame_ok_fields (tbl : ConvTable) (w : NCDFWriterState)
    (ts : Timestep) (w2 : NCDFWriterState)
    (h : write_next_frame tbl w ts = .ok w2) :
    w2.n_atoms = w.n_atoms ∧
    ((w.trjfile = none ∨ w.first_frame = false) → w2.first_frame = false) := by
  rw [write_next_frame] at h
  split at h
  · exact absurd h (by simp)
  · split at h
    · rename_i hnone
      split at h
      · exact absurd h (by simp)
      · rename_i w3 hinit
        obtain ⟨hts1, hts2⟩ := write_next_timestep_ok_fields tbl w3 ts w2 h
        obtain ⟨_, hini2, hini3⟩ := init_netcdf_ok_fields w _ w3 hinit
        exact ⟨hts2.trans hini3, fun _ => hts1.trans hini2⟩
    · obtain ⟨hts1, hts2⟩ := write_next_timestep_ok_fields tbl w ts w2 h
      rename_i hsome
      refine ⟨hts2, ?_⟩
      rintro (hcon | hff)
      · rw [hcon] at hsome
        exact absurd hsome (by simp)
      · exact hts1.trans hff

/-- Sequential writing preserves the atom count and a cleared first-frame
flag. -/
theorem write_frames_ok_fields (tbl : ConvTable) :
    ∀ (frames : List Timestep) (w w2 : NCDFWriterState),
      write_frames tbl w frames = .ok w2 →
      w2.n_atoms = w.n_atoms ∧ (w.first_frame = false → w2.first_frame = false)
  | [], w, w2, h => by
    rw [write_frames] at h
    rw [Except.ok.injEq] at h
    rw [← h]
    exact ⟨rfl, fun hf => hf⟩
  | ts :: rest, w, w2, h => by
    rw [write_frames] at h
    split at h
    · exact absurd h (by simp)
    · rename_i w1 hstep
      obtain ⟨hn, hf⟩ := write_frames_ok_fields tbl rest w1 w2 h
      obtain ⟨hn1, hf1⟩ := write_next_frame_ok_fields tbl w ts w1 hstep
      exact ⟨hn.trans hn1, fun hw => hf (hf1 (Or.inr hw))⟩

/-- Writing at least one frame from a fresh writer clears the first-frame
flag. -/
theorem write_frames_fresh (tbl : ConvTable) (frames : List Timestep)
    (w w2 : NCDFWriterState) (h0 : w.trjfile = none) (hne : frames ≠ [])
    (h : write_frames tbl w frames = .ok w2) : w2.first_frame = false := by
  match frames, hne with
  | ts :: rest, _ =>
    rw [write_frames] at h
    split at h
    · exact absurd h (by simp)
    · rename_i w1 hstep
      have hf1 := (write_next_frame_ok_fields tbl w ts w1 hstep).2 (Or.inl h0)
      exact (write_frames_ok_fields tbl rest w1 w2 h).2 hf1

/-- Claim C6: once a writer that has written at least one frame is closed,
any further frame write fails, and with a matching atom count it fails with
the closed-file I/O error before any container or schema is created. -/
theorem ncdf_writer_closed_rejects_writes (tbl : ConvTable)
    (w0 : NCDFWriterState) (h0 : w0.trjfile = none)
    (frames : List Timestep) (hne : frames ≠ [])
    (w1 : NCDFWriterState) (hw : write_frames tbl w0 frames = .ok w1) :
    (∀ ts, ∃ e, write_next_frame tbl (closeWriter w1) ts = .error e) ∧
    (∀ ts, (ts.n_atoms : Int) = w1.n_atoms →
        write_next_frame tbl (closeWriter w1) ts =
          .error (.ioError "Attempt to write to closed file")) := by
  have hff : w1.first_frame = false := write_frames_fresh tbl frames w0 w1 h0 hne hw
  have hclosed : ∀ ts, (ts.n_atoms : Int) = w1.n_atoms →
      write_next_frame tbl (closeWriter w1) ts =
        .error (.ioError "Attempt to write to closed file") := by
    intro ts hts
    rw [write_next_frame]
    rw [if_neg (not_not_intro (show (ts.n_atoms : Int) = (closeWriter w1).n_atoms from hts))]
    show (match init_netcdf (closeWriter w1) ts.dimensions.isSome with
          | .error e => Except.error e
          | .ok w2 => write_next_timestep tbl w2 ts) = _
    rw [init_netcdf]
    rw [if_pos]
    show ¬ (closeWriter w1).first_frame = true
    show ¬ w1.first_frame = true
    rw [hff]
    simp
  refine ⟨?_, hclosed⟩
  intro ts
  by_cases hts : (ts.n_atoms : Int) = w1.n_atoms
  · exact ⟨_, hclosed ts hts⟩
  · refine ⟨.ioError "NCDFWriter: Timestep does not have the correct number of atoms", ?_⟩
    rw [write_next_frame]
    rw [if_pos (show (ts.n_atoms : Int) ≠ (closeWriter w1).n_atoms from hts)]

/-- Witness for C6: one frame written, then the writer is closed and the
next write fails with the closed-file error. -/
theorem ncdf_writer_closed_rejects_writes_witness :
    ∃ w1, write_frames tblOne writerFresh [tsSimple] = .ok w1 ∧
      write_next_frame tblOne (closeWriter w1) tsSimple =
        .error (.ioError "Attempt to write to closed file") := by
  refine ⟨_, rfl, ?_⟩
  exact (ncdf_writer_closed_rejects_writes tblOne writerFresh rfl [tsSimple]
    (by simp) _ rfl).2 tsSimple rfl

/-! ## ASCII frame decoding lemmas -/

/-- Unfolding lemma for the scan loop at zero remaining lines. -/
theorem scan_go_zero (d c : Nat) : scan_go d c 0 = if c % d = 0 then 1 else 0 := rfl

/-- Unfolding lemma for one scan-loop iteration. -/
theorem scan_go_succ (d c m : Nat) :
    scan_go d c (m + 1) = (if c % d = 0 then 1 else 0) + scan_go d (c + 1) m := rfl

/-- The scan loop records nothing across a stretch of non-multiples. -/
theorem scan_go_nohits (d : Nat) :
    ∀ (j c m : Nat), (∀ i, i < j → (c + i) % d ≠ 0) →
      scan_go d c (j + m) = scan_go d (c + j) m
  | 0, c, m, _ => by rw [Nat.zero_add, Nat.add_zero]
  | j + 1, c, m, h => by
    have h0 : c % d ≠ 0 := by simpa using h 0 (Nat.succ_pos j)
    have hrw : j + 1 + m = (j + m) + 1 := by omega
    rw [hrw, scan_go_succ, if_neg h0, Nat.zero_add]
    rw [scan_go_nohits d j (c + 1) m (fun i hi => by
      have := h (i + 1) (by omega)
      rw [show c + (i + 1) = c + 1 + i by omega] at this
      exact this)]
    congr 1
    omega

/-- The scan loop records exactly one offset per full frame block. -/
theorem scan_go_block (d : Nat) (hd : 1 ≤ d) (c m : Nat) (hc : c % d = 0) :
    scan_go d c (d + m) = 1 + scan_go d (c + d) m := by
  have hdm : d + m = ((d - 1) + m) + 1 := by omega
  rw [hdm, scan_go_succ, if_pos hc]
  congr 1
  rw [scan_go_nohits d (d - 1) (c + 1) m ?_]
  · congr 1
    omega
  · intro i hi
    obtain ⟨q, hq⟩ := Nat.dvd_of_mod_eq_zero hc
    rw [show c + 1 + i = (1 + i) + d * q by omega, Nat.add_mul_mod_self_left]
    rw [Nat.mod_eq_of_lt (by omega)]
    omega

/-- The scan loop over `F` full frame blocks records `F + 1` offsets (the
last one at end of file). -/
theorem scan_go_multiples (d : Nat) (hd : 1 ≤ d) :
    ∀ (F c : Nat), c % d = 0 → scan_go d c (F * d) = F + 1
  | 0, c, hc => by rw [Nat.zero_mul, scan_go_zero, if_pos hc]
  | F + 1, c, hc => by
    rw [show (F + 1) * d = d + F * d by ring, scan_go_block d hd c (F * d) hc]
    rw [scan_go_multiples d hd F (c + d) (by rw [Nat.add_mod_right]; exact hc)]
    omega

/-- Decoding a list of lines whose lengths are full except for the last:
the default decoder handles full lines, the short-line decoder the last. -/
theorem parse_lines_shape (n_atoms w : Nat)
    (hw : w = 10 ∨ (w = last_per_line n_atoms ∧ 1 ≤ w ∧ w < 10)) :
    ∀ (k : Nat) (c : List Line),
      c.map List.length = List.replicate k 10 ++ [w] →
      ∃ xs, parse_frame_lines n_atoms c = .ok xs ∧ xs.length = 10 * k + w
  | 0, c, hc => by
    match c, hc with
    | [l], hc =>
      have hl : l.length = w := by simpa using hc
      rcases hw with hw | ⟨hw, hw1, hw2⟩
      · refine ⟨l.take 10, ?_, ?_⟩
        · rw [parse_frame_lines, parse_frame_line, fortran_read, if_pos (by omega)]
          simp [parse_frame_lines]
        · rw [List.length_take]
          omega
      · refine ⟨l.take (last_per_line n_atoms), ?_, ?_⟩
        · rw [parse_frame_lines, parse_frame_line, fortran_read, if_neg (by omega),
            fortran_read, if_pos (by omega)]
          simp [parse_frame_lines]
        · rw [List.length_take]
          omega
  | k + 1, c, hc => by
    match c, hc with
    | l :: c2, hc =>
      have hl : l.length = 10 := by
        have := congrArg (fun t => t.headI) hc
        simpa [List.replicate_succ] using this
      have hc2 : c2.map List.length = List.replicate k 10 ++ [w] := by
        have := congrArg List.tail hc
        simpa [List.replicate_succ] using this
      obtain ⟨xs, hxs, hlen⟩ := parse_lines_shape n_atoms w hw k c2 hc2
      refine ⟨l.take 10 ++ xs, ?_, ?_⟩
      · rw [parse_frame_lines, parse_frame_line, fortran_read, if_pos (by omega), hxs]
      · rw [List.length_append, List.length_take]
        omega

/-- Decoding the coordinate chunk of one complete frame succeeds and yields
exactly `3 * n_atoms` values. -/
theorem parse_coord_chunk (n_atoms : Nat) (hn : 1 ≤ n_atoms) (c : List Line)
    (hc : IsCoordChunk n_atoms c) :
    ∃ xs, parse_frame_lines n_atoms c = .ok xs ∧ xs.length = 3 * n_atoms ∧
      c.length = lines_per_frame n_atoms := by
  rw [IsCoordChunk, coord_line_counts] at hc
  have hclen : c.length = lines_per_frame n_atoms := by
    have := congrArg List.length hc
    simp only [List.length_map, List.length_append, List.length_replicate,
      List.length_singleton] at this
    have hlpf : 1 ≤ lines_per_frame n_atoms := by
      rw [lines_per_frame]
      omega
    omega
  by_cases h0 : last_per_line n_atoms = 0
  · rw [if_pos h0] at hc
    obtain ⟨xs, hxs, hlen⟩ := parse_lines_shape n_atoms 10 (Or.inl rfl)
      (lines_per_frame n_atoms - 1) c hc
    refine ⟨xs, hxs, ?_, hclen⟩
    rw [hlen]
    rw [lines_per_frame]
    rw [last_per_line] at h0
    omega
  · rw [if_neg h0] at hc
    have hlast : last_per_line n_atoms < 10 := by
      rw [last_per_line]
      omega
    obtain ⟨xs, hxs, hlen⟩ := parse_lines_shape n_atoms (last_per_line n_atoms)
      (Or.inr ⟨rfl, by omega, hlast⟩) (lines_per_frame n_atoms - 1) c hc
    refine ⟨xs, hxs, ?_, hclen⟩
    rw [hlen, lines_per_frame, last_per_line]
    rw [last_per_line] at h0
    omega

/-- Reading the next timestep over one complete frame chunk consumes
exactly that chunk, succeeds, and advances the frame label. -/
theorem read_next_on_chunk (n_atoms : Nat) (hn : 1 ≤ n_atoms) (p : Bool)
    (chunk rest : List Line) (hch : IsFrameChunk n_atoms p chunk) (fr : Int) :
    ∃ out, read_next_timestep n_atoms
        { periodic := p, pos := chunk ++ rest, frame := fr }
      = .ok ({ periodic := p, pos := rest, frame := fr + 1 }, out) := by
  obtain ⟨c, b, rfl, hcc, hb⟩ := hch
  obtain ⟨xs, hparse, hlen, hclen⟩ := parse_coord_chunk n_atoms hn c hcc
  have hlpf : 1 ≤ lines_per_frame n_atoms := by
    rw [lines_per_frame]
    omega
  cases p with
  | false =>
    have hb2 : b = [] := by simpa using hb
    subst hb2
    rw [List.append_nil]
    have hmin : min (lines_per_frame n_atoms) ((c ++ rest).length)
        = lines_per_frame n_atoms := by
      refine Nat.min_eq_left ?_
      rw [List.length_append, hclen]
      omega
    have htake : (c ++ rest).take (lines_per_frame n_atoms) = c := by
      rw [← hclen, List.take_left]
    have hdrop : (c ++ rest).drop (lines_per_frame n_atoms) = rest := by
      rw [← hclen, List.drop_left]
    refine ⟨{ coords := xs, box := none }, ?_⟩
    simp only [read_next_timestep]
    rw [hmin, if_neg (by omega), htake, hparse, hdrop]
    simp [hlen]
  | true =>
    obtain ⟨bl, hb2, hbl⟩ : ∃ bl, b = [bl] ∧ bl.length = 3 := by simpa using hb
    subst hb2
    rw [List.append_assoc]
    have hmin : min (lines_per_frame n_atoms) ((c ++ ([bl] ++ rest)).length)
        = lines_per_frame n_atoms := by
      refine Nat.min_eq_left ?_
      rw [List.length_append, hclen]
      omega
    have htake : (c ++ ([bl] ++ rest)).take (lines_per_frame n_atoms) = c := by
      rw [← hclen, List.take_left]
    have hdrop : (c ++ ([bl] ++ rest)).drop (lines_per_frame n_atoms)
        = [bl] ++ rest := by
      rw [← hclen, List.drop_left]
    refine ⟨{ coords := xs, box := some (bl.take 3 ++ [90, 90, 90]) }, ?_⟩
    simp only [read_next_timestep]
    rw [hmin, if_neg (by omega), htake, hparse, hdrop, List.singleton_append]
    simp [fortran_read, hbl, hlen]

/-- Sequentially reading `F` complete frames from a file of `F` chunks
succeeds and ends with the stream exhausted. -/
theorem read_n_times_chunks (n_atoms : Nat) (hn : 1 ≤ n_atoms) (p : Bool) :
    ∀ (chunks : List (List Line)) (fr : Int),
      (∀ ch ∈ chunks, IsFrameChunk n_atoms p ch) →
      read_n_times n_atoms { periodic := p, pos := chunks.flatten, frame := fr }
          chunks.length
        = .ok { periodic := p, pos := [], frame := fr + chunks.length }
  | [], fr, _ => by
    rw [List.length_nil, read_n_times, List.flatten_nil]
    norm_num
  | ch :: chunks, fr, h => by
    obtain ⟨out, hstep⟩ := read_next_on_chunk n_atoms hn p ch chunks.flatten
      (h ch (List.mem_cons_self ch chunks)) fr
    rw [List.length_cons, read_n_times, List.flatten_cons, hstep]
    show read_n_times n_atoms
        { periodic := p, pos := chunks.flatten, frame := fr + 1 } chunks.length = _
    rw [read_n_times_chunks n_atoms hn p chunks (fr + 1)
      (fun c hc => h c (List.mem_cons_of_mem ch hc))]
    congr 2
    push_cast
    ring

/-- Reading past the last frame raises the end-of-stream signal. -/
theorem read_next_empty (n_atoms : Nat) (p : Bool) (fr : Int) :
    read_next_timestep n_atoms { periodic := p, pos := [], frame := fr }
      = .error .eofError := by
  simp [read_next_timestep]

/-- Every complete frame chunk has exactly `lines_per_frame` lines plus one
box line when periodic. -/
theorem frame_chunk_length (n_atoms : Nat) (hn : 1 ≤ n_atoms) (p : Bool)
    (chunk : List Line) (h : IsFrameChunk n_atoms p chunk) :
    chunk.length = lines_per_frame n_atoms + (if p then 1 else 0) := by
  obtain ⟨c, b, rfl, hcc, hb⟩ := h
  have hclen : c.length = lines_per_frame n_atoms := by
    rw [IsCoordChunk, coord_line_counts] at hcc
    have hl := congrArg List.length hcc
    simp only [List.length_map, List.length_append, List.length_replicate,
      List.length_singleton] at hl
    have hlpf : 1 ≤ lines_per_frame n_atoms := by
      rw [lines_per_frame]
      omega
    omega
  cases p with
  | true =>
    obtain ⟨bl, hb2, _⟩ : ∃ bl, b = [bl] ∧ bl.length = 3 := by simpa using hb
    subst hb2
    simp [hclen]
  | false =>
    rw [(by simpa using hb : b = [])]
    simp [hclen]

/-- The total line count of a file of `F` complete frames. -/
theorem chunks_flatten_length (n_atoms : Nat) (hn : 1 ≤ n_atoms) (p : Bool) :
    ∀ chunks : List (List Line),
      (∀ ch ∈ chunks, IsFrameChunk n_atoms p ch) →
      chunks.flatten.length
        = chunks.length * (lines_per_frame n_atoms + (if p then 1 else 0))
  | [], _ => by simp
  | ch :: chunks, h => by
    rw [List.flatten_cons, List.length_append, List.length_cons,
      frame_chunk_length n_atoms hn p ch (h ch (List.mem_cons_self ch chunks)),
      chunks_flatten_length n_atoms hn p chunks
        (fun c hc => h c (List.mem_cons_of_mem ch hc))]
    ring

/-! ## Claim C4: frame counting matches sequential reading -/

/-- Claim C4: for every ASCII TRJ file of exactly `F` complete frames
(periodic or not), the frame-counting scan returns `F`, and `F` is exactly
the number of successful sequential read-next calls before the
end-of-stream signal is raised. -/
theorem trj_frame_count (n_atoms : Nat) (hn : 1 ≤ n_atoms) (p : Bool)
    (chunks : List (List Line))
    (hchunks : ∀ ch ∈ chunks, IsFrameChunk n_atoms p ch) :
    read_trj_n_frames n_atoms p chunks.flatten.length = chunks.length ∧
    read_n_times n_atoms { periodic := p, pos := chunks.flatten, frame := -1 }
        chunks.length
      = .ok { periodic := p, pos := [], frame := -1 + chunks.length } ∧
    read_next_timestep n_atoms
        { periodic := p, pos := [], frame := -1 + chunks.length }
      = .error .eofError := by
  have hlpf : 1 ≤ lines_per_frame n_atoms := by
    rw [lines_per_frame]
    omega
  refine ⟨?_, read_n_times_chunks n_atoms hn p chunks (-1) hchunks,
    read_next_empty n_atoms p _⟩
  rw [chunks_flatten_length n_atoms hn p chunks hchunks]
  simp only [read_trj_n_frames]
  rw [scan_go_multiples _ (by split <;> omega) chunks.length 0 (Nat.zero_mod _)]
  omega

/-- Witness for C4: a two-atom non-periodic file of one complete frame. -/
theorem trj_frame_count_witness :
    read_trj_n_frames 2 false 1 = 1 ∧
    read_n_times 2 { periodic := false, pos := [lineSix], frame := -1 } 1
      = .ok { periodic := false, pos := [], frame := 0 } ∧
    read_next_timestep 2 { periodic := false, pos := [], frame := 0 }
      = .error .eofError := by
  have h := trj_frame_count 2 (by omega) false [[lineSix]]
    (fun ch hch => by
      rw [List.mem_singleton] at hch
      exact hch ▸ ⟨[lineSix], [], rfl,
        (by decide : List.map List.length [lineSix] = coord_line_counts 2), rfl⟩)
  simpa using h

/-! ## Claim C10: the box probe fails on a one-frame file -/

/-- Claim C10: for `n_atoms ≥ 2` and a file holding exactly one complete
frame with no box line, the open-time box-detection probe reads one line
past the frame, hits the end of the stream and raises, so constructing the
reader fails instead of concluding the file is non-periodic. -/
theorem trj_one_frame_probe_fails (n_atoms : Nat) (hn : 2 ≤ n_atoms)
    (header : String)
    (hh : (header.data.reverse.dropWhile Char.isWhitespace).length ≤ 80)
    (chunk : List Line) (hc : IsCoordChunk n_atoms chunk) :
    detect_amber_box n_atoms chunk = .error .stopIteration ∧
    mkTRJReader (some n_atoms) header chunk = .error .stopIteration := by
  have hdet : detect_amber_box n_atoms chunk = .error .stopIteration := by
    rw [detect_amber_box, if_neg (by omega)]
    obtain ⟨out, hstep⟩ := read_next_on_chunk n_atoms (by omega) false chunk []
      ⟨chunk, [], (List.append_nil chunk).symm, hc, rfl⟩ (-1)
    rw [List.append_nil] at hstep
    rw [hstep]
  refine ⟨hdet, ?_⟩
  rw [mkTRJReader]
  rw [if_neg (by omega)]
  rw [open_trajectory_check, if_neg (by omega)]
  rw [hdet]

/-- Witness for C10: two atoms, a one-line frame, no box line. -/
theorem trj_one_frame_probe_fails_witness :
    detect_amber_box 2 [lineSix] = .error .stopIteration ∧
    mkTRJReader (some 2) "" [lineSix] = .error .stopIteration :=
  trj_one_frame_probe_fails 2 (by omega) "" (by decide) [lineSix]
    (by decide : List.map List.length [lineSix] = coord_line_counts 2)

/-! ## NCDF open-validation lemmas -/

/-- Success extraction for `Except.bind`. -/
theorem except_bind_ok {e a b : Type} (x : Except e a) (f : a → Except e b)
    (r : b) (h : x.bind f = .ok r) : ∃ v, x = .ok v ∧ f v = .ok r := by
  cases x with
  | error err => exact absurd h (by simp [Except.bind])
  | ok v => exact ⟨v, rfl, h⟩

/-- A successful units verification pins the unit string. -/
theorem verify_units_ok (u expected : String) (r : Unit)
    (h : verify_units u expected = .ok r) : u = expected := by
  rw [verify_units] at h
  split at h
  · exact absurd h (by simp)
  · rename_i hne
    exact not_not.mp hne

/-- A successful units fetch exposes the variable and its attribute. -/
theorem variable_units_ok (vars : List (String × NCDFVariable)) (name u : String)
    (h : variable_units vars name = .ok u) :
    ∃ v, lookup_variable vars name = some v ∧ v.units = some u := by
  rw [variable_units] at h
  split at h
  · exact absurd h (by simp)
  · rename_i v hv
    split at h
    · exact absurd h (by simp)
    · rename_i u2 hu
      rw [Except.ok.injEq] at h
      exact ⟨v, hv, h ▸ hu⟩

/-- A successful version-byte check pins the byte to 2. -/
theorem require_version_byte_ok (c : NCDFFile) (r : Unit)
    (h : require_version_byte c = .ok r) : c.version_byte = 2 := by
  rw [require_version_byte] at h
  split at h
  · exact absurd h (by simp)
  · rename_i hne
    exact not_not.mp hne

/-- A successful frame read happens strictly below the frame count and
leaves the count unchanged. -/
theorem read_frame_nc_ok_bounds (tbl : ConvTable) (st : NCDFReaderState)
    (frame : Nat) (st2 : NCDFReaderState) (out : Timestep)
    (h : read_frame_nc tbl st frame = .ok (st2, out)) :
    frame < st.n_frames ∧ st2.n_frames = st.n_frames := by
  rw [read_frame_nc] at h
  split at h
  · exact absurd h (by simp)
  · rename_i hlt
    obtain ⟨rawPos, h1, h⟩ := except_bind_ok _ _ _ h
    obtain ⟨rawTime, h2, h⟩ := except_bind_ok _ _ _ h
    obtain ⟨t, h3, h⟩ := except_bind_ok _ _ _ h
    obtain ⟨vels, h4, h⟩ := except_bind_ok _ _ _ h
    obtain ⟨fors, h5, h⟩ := except_bind_ok _ _ _ h
    obtain ⟨cell, h6, h⟩ := except_bind_ok _ _ _ h
    simp only [Except.ok.injEq, Prod.mk.injEq] at h
    refine ⟨by omega, ?_⟩
    rw [← h.1]

/-- Success of the post-convention validation body implies the 64-bit
version byte, angstrom coordinate units and a nonempty trajectory. -/
theorem open_body_ok_facts (tbl : ConvTable) (c : NCDFFile)
    (nArg : Option Nat) (cu : Bool) (st : NCDFReaderState) (ws : List String)
    (h : open_body tbl c nArg cu = .ok (st, ws)) :
    c.version_byte = 2 ∧
    (∃ v, lookup_variable c.var_table "coordinates" = some v ∧
        v.units = some "angstrom") ∧
    1 ≤ st.n_frames := by
  rw [open_body] at h
  obtain ⟨u1, hvb, h⟩ := except_bind_ok _ _ _ h
  obtain ⟨sp, hsp, h⟩ := except_bind_ok _ _ _ h
  obtain ⟨atomDim, hat, h⟩ := except_bind_ok _ _ _ h
  obtain ⟨frameDim, hfd, h⟩ := except_bind_ok _ _ _ h
  obtain ⟨tu, htu, h⟩ := except_bind_ok _ _ _ h
  obtain ⟨u2, htv, h⟩ := except_bind_ok _ _ _ h
  obtain ⟨coordUnit, hcu2, h⟩ := except_bind_ok _ _ _ h
  obtain ⟨u3, hcv, h⟩ := except_bind_ok _ _ _ h
  obtain ⟨sfs, hsf, h⟩ := except_bind_ok _ _ _ h
  obtain ⟨u4, hvel, h⟩ := except_bind_ok _ _ _ h
  obtain ⟨u5, hfor, h⟩ := except_bind_ok _ _ _ h
  obtain ⟨u6, hcl, h⟩ := except_bind_ok _ _ _ h
  obtain ⟨u7, hca, h⟩ := except_bind_ok _ _ _ h
  obtain ⟨pr, hread, h⟩ := except_bind_ok _ _ _ h
  obtain ⟨st1, out⟩ := pr
  have hcang : coordUnit = "angstrom" := verify_units_ok _ _ _ hcv
  obtain ⟨v, hv, hvu⟩ := variable_units_ok _ _ _ hcu2
  obtain ⟨hlt, hnf⟩ := read_frame_nc_ok_bounds tbl _ 0 st1 out hread
  simp only [Except.ok.injEq, Prod.mk.injEq] at h
  refine ⟨require_version_byte_ok c _ hvb, ⟨v, hv, hcang ▸ hvu⟩, ?_⟩
  rw [← h.1, hnf]
  omega

/-- Changing the `ConventionVersion` attribute does not change the
validation body (which never reads it). -/
theorem open_body_cv (tbl : ConvTable) (c : NCDFFile) (nArg : Option Nat)
    (cu : Bool) (v : String) :
    open_body tbl (set_convention_version c v) nArg cu
      = open_body tbl c nArg cu := rfl

/-- `openNCDF` on a container with a replaced `ConventionVersion`, written
without consulting that attribute anywhere except the warning. -/
theorem openNCDF_set_cv (tbl : ConvTable) (c : NCDFFile) (nArg : Option Nat)
    (cu : Bool) (v : String) :
    openNCDF tbl (set_convention_version c v) nArg cu =
      match c.conventions with
      | none => .error (.valueError "NCDF trajectory is missing Conventions")
      | some conv =>
        if ¬ has_amber_token conv then
          .error (.typeError "NCDF trajectory does not conform to AMBER specifications")
        else
          match open_body tbl c nArg cu with
          | .error e => .error e
          | .ok (st, ws) =>
            .ok (st, (if v ≠ "1.0" then [version_warning] else []) ++ ws) := rfl

/-! ## Claim C3: open-time validation outcomes -/

/-- Claim C3: opening hard-fails unless the `Conventions` attribute carries
the token `AMBER`, the container's version byte is the 64-bit-offset value
2, and the coordinates variable is declared in angstrom; a
`ConventionVersion` other than `"1.0"` never affects success and only adds
a warning. -/
theorem ncdf_open_validation (tbl : ConvTable) (c : NCDFFile)
    (nArg : Option Nat) (cuFlag : Bool) :
    (∀ st ws, openNCDF tbl c nArg cuFlag = .ok (st, ws) →
        (∃ conv, c.conventions = some conv ∧ has_amber_token conv = true) ∧
        c.version_byte = 2 ∧
        (∃ v, lookup_variable c.var_table "coordinates" = some v ∧
            v.units = some "angstrom")) ∧
    (∀ v1 v2 : String,
        (openNCDF tbl (set_convention_version c v1) nArg cuFlag).isOk =
        (openNCDF tbl (set_convention_version c v2) nArg cuFlag).isOk) ∧
    (∀ v st ws, c.conventionVersion = some v → v ≠ "1.0" →
        openNCDF tbl c nArg cuFlag = .ok (st, ws) → version_warning ∈ ws) := by
  refine ⟨?_, ?_, ?_⟩
  · intro st ws h
    rw [openNCDF] at h
    split at h
    · exact absurd h (by simp)
    · rename_i conv hconv
      split at h
      · exact absurd h (by simp)
      · rename_i hamber
        split at h
        · exact absurd h (by simp)
        · rename_i cv hcv
          split at h
          · exact absurd h (by simp)
          · rename_i st1 ws1 hob
            obtain ⟨f1, f2, _⟩ := open_body_ok_facts tbl c nArg cuFlag st1 ws1 hob
            exact ⟨⟨conv, hconv, not_not.mp hamber⟩, f1, f2⟩
  · intro v1 v2
    rw [openNCDF_set_cv, openNCDF_set_cv]
    cases hc : c.conventions with
    | none => rfl
    | some conv =>
      cases hob : open_body tbl c nArg cuFlag with
      | error e => simp [hob]
      | ok pr =>
        obtain ⟨st1, ws1⟩ := pr
        by_cases ha : has_amber_token conv = true
        · simp only [ha, hob]
          rfl
        · simp [ha]
  · intro v st ws hcv hne h
    rw [openNCDF] at h
    split at h
    · exact absurd h (by simp)
    · rename_i conv hconv
      split at h
      · exact absurd h (by simp)
      · rename_i hamber
        split at h
        · exact absurd h (by simp)
        · rename_i cv hcv2
          split at h
          · exact absurd h (by simp)
          · rename_i st1 ws1 hob
            rw [Except.ok.injEq, Prod.mk.injEq] at h
            have hveq : cv = v := by
              rw [hcv] at hcv2
              exact (Option.some.injEq cv v).mp hcv2.symm
            rw [← h.2, if_pos (hveq ▸ hne)]
            exact List.mem_append_left ws1 (List.mem_singleton.mpr rfl)

/-- Witness for C3: a conforming container whose `ConventionVersion` is
`"2.0"` opens with exactly the version warning. -/
theorem ncdf_open_validation_witness :
    ∃ st ws, openNCDF tblOne sampleNCDF none false = .ok (st, ws) ∧
      ((∃ conv, sampleNCDF.conventions = some conv ∧
          has_amber_token conv = true) ∧
        sampleNCDF.version_byte = 2 ∧
        (∃ v, lookup_variable sampleNCDF.var_table "coordinates" = some v ∧
            v.units = some "angstrom")) ∧
      version_warning ∈ ws := by
  refine ⟨_, _, rfl, ?_, ?_⟩
  · exact (ncdf_open_validation tblOne sampleNCDF none false).1 _ _ rfl
  · exact (ncdf_open_validation tblOne sampleNCDF none false).2.2 "2.0" _ _ rfl
      (by decide) rfl

/-! ## Claim C9: opening eagerly reads frame 0 -/

/-- Claim C9: opening always eagerly reads frame 0, so a container with no
stored frames fails to open with an index error, and every successfully
opened reader holds at least one frame. -/
theorem ncdf_open_requires_frame (tbl : ConvTable) (c : NCDFFile)
    (nArg : Option Nat) (cuFlag : Bool) :
    (∀ st ws, openNCDF tbl c nArg cuFlag = .ok (st, ws) → 1 ≤ st.n_frames) ∧
    openNCDF tblOne zeroFrameNCDF none false =
      .error (.indexError "frame index must be in range") := by
  refine ⟨?_, rfl⟩
  intro st ws h
  rw [openNCDF] at h
  split at h
  · exact absurd h (by simp)
  · rename_i conv hconv
    split at h
    · exact absurd h (by simp)
    · split at h
      · exact absurd h (by simp)
      · rename_i cv hcv
        split at h
        · exact absurd h (by simp)
        · rename_i st1 ws1 hob
          rw [Except.ok.injEq, Prod.mk.injEq] at h
          rw [← h.1]
          exact (open_body_ok_facts tbl c nArg cuFlag st1 ws1 hob).2.2

/-- Witness for C9: the one-frame sample container opens with one frame. -/
theorem ncdf_open_requires_frame_witness :
    ∃ st ws, openNCDF tblOne sampleNCDF none false = .ok (st, ws) ∧
      1 ≤ st.n_frames := by
  refine ⟨_, _, rfl, ?_⟩
  exact (ncdf_open_requires_frame tblOne sampleNCDF none false).1 _ _ rfl

/-! ## Writer-side round-trip lemmas -/

/-- Assigning at the index one past the end of an unlimited variable
appends. -/
theorem set_slice_map_len {g : Timestep → List ℚ} (u : Option String)
    (sc : Option ℚ) (tss : List Timestep) (d : List ℚ) :
    set_slice ⟨u, sc, tss.map g⟩ tss.length d
      = ⟨u, sc, (tss.map g) ++ [d]⟩ := by
  rw [set_slice]
  rw [if_neg (by simp)]
  simp

/-- `_init_netcdf` on a fresh writer produces exactly the empty written
container for its configuration. -/
theorem init_netcdf_written (tbl : ConvTable) (w : NCDFWriterState) (p : Bool)
    (hf : w.first_frame = true) :
    init_netcdf w p = Except.ok
      { w with
        first_frame := false
        trjfile := some (written_file tbl w.n_atoms w.convert_units w.scale_factors
          w.has_velocities w.has_forces p [])
        periodic := some p } := by
  rw [init_netcdf, if_neg (by rw [hf]; simp)]
  rfl

/-- One `_write_next_timestep` on a writer holding the container written
from `tss` appends exactly the quantised slices of `ts`. -/
theorem write_next_timestep_written (tbl : ConvTable) (w : NCDFWriterState)
    (p : Bool) (tss : List Timestep) (ts : Timestep)
    (hfile : w.trjfile = some (written_file tbl w.n_atoms w.convert_units
        w.scale_factors w.has_velocities w.has_forces p tss))
    (hper : w.periodic = some p)
    (hcurr : w.curr_frame = tss.length)
    (hvel : w.has_velocities = true → ts.velocities.isSome = true)
    (hfo : w.has_forces = true → ts.forces.isSome = true)
    (hdim : p = true → ts.dimensions.isSome = true) :
    write_next_timestep tbl w ts = Except.ok
      { w with
        trjfile := some (written_file tbl w.n_atoms w.convert_units
          w.scale_factors w.has_velocities w.has_forces p (tss ++ [ts]))
        curr_frame := w.curr_frame + 1 } := by
  cases p with
  | false =>
    cases hv : w.has_velocities with
    | false =>
      cases hf2 : w.has_forces with
      | false =>
        rw [hv, hf2] at hfile
        simp [write_next_timestep, hfile, hper, hcurr, hv, hf2, written_file,
          set_frame_var_and_scale, set_variable_slice, scale_factor_of,
          out_pos_slice, out_time_slice, set_slice_map_len]
      | true =>
        obtain ⟨fs, hfs⟩ := Option.isSome_iff_exists.mp (hfo hf2)
        rw [hv, hf2] at hfile
        simp [write_next_timestep, hfile, hper, hcurr, hv, hf2, hfs, written_file,
          set_frame_var_and_scale, set_variable_slice, scale_factor_of,
          out_pos_slice, out_time_slice, out_force_slice, set_slice_map_len]
    | true =>
      obtain ⟨vs, hvs⟩ := Option.isSome_iff_exists.mp (hvel hv)
      cases hf2 : w.has_forces with
      | false =>
        rw [hv, hf2] at hfile
        simp [write_next_timestep, hfile, hper, hcurr, hv, hf2, hvs, written_file,
          set_frame_var_and_scale, set_variable_slice, scale_factor_of,
          out_pos_slice, out_time_slice, out_vel_slice, set_slice_map_len]
      | true =>
        obtain ⟨fs, hfs⟩ := Option.isSome_iff_exists.mp (hfo hf2)
        rw [hv, hf2] at hfile
        simp [write_next_timestep, hfile, hper, hcurr, hv, hf2, hvs, hfs, written_file,
          set_frame_var_and_scale, set_variable_slice, scale_factor_of,
          out_pos_slice, out_time_slice, out_vel_slice, out_force_slice,
          set_slice_map_len]
  | true =>
    obtain ⟨dims, hdims⟩ := Option.isSome_iff_exists.mp (hdim rfl)
    have hcell : (if w.convert_units then
          Option.map (convert_dimensions_to_unitcell tbl) ts.dimensions
        else ts.dimensions) = some (out_dims tbl w.convert_units ts) := by
      cases hcu : w.convert_units <;> simp [out_dims, hdims, hcu]
    cases hv : w.has_velocities with
    | false =>
      cases hf2 : w.has_forces with
      | false =>
        rw [hv, hf2] at hfile
        simp [write_next_timestep, hfile, hper, hcurr, hv, hf2, hcell, written_file,
          set_frame_var_and_scale, set_variable_slice, scale_factor_of,
          out_pos_slice, out_time_slice, out_cell_lengths_slice,
          out_cell_angles_slice, set_slice_map_len]
      | true =>
        obtain ⟨fs, hfs⟩ := Option.isSome_iff_exists.mp (hfo hf2)
        rw [hv, hf2] at hfile
        simp [write_next_timestep, hfile, hper, hcurr, hv, hf2, hcell, hfs, written_file,
          set_frame_var_and_scale, set_variable_slice, scale_factor_of,
          out_pos_slice, out_time_slice, out_cell_lengths_slice,
          out_cell_angles_slice, out_force_slice, set_slice_map_len]
    | true =>
      obtain ⟨vs, hvs⟩ := Option.isSome_iff_exists.mp (hvel hv)
      cases hf2 : w.has_forces with
      | false =>
        rw [hv, hf2] at hfile
        simp [write_next_timestep, hfile, hper, hcurr, hv, hf2, hcell, hvs, written_file,
          set_frame_var_and_scale, set_variable_slice, scale_factor_of,
          out_pos_slice, out_time_slice, out_cell_lengths_slice,
          out_cell_angles_slice, out_vel_slice, set_slice_map_len]
      | true =>
        obtain ⟨fs, hfs⟩ := Option.isSome_iff_exists.mp (hfo hf2)
        rw [hv, hf2] at hfile
        simp [write_next_timestep, hfile, hper, hcurr, hv, hf2, hcell, hvs, hfs,
          written_file, set_frame_var_and_scale, set_variable_slice, scale_factor_of,
          out_pos_slice, out_time_slice, out_cell_lengths_slice,
          out_cell_angles_slice, out_vel_slice, out_force_slice, set_slice_map_len]


theorem write_frames_written (tbl : ConvTable) (A : Nat) (cu vel fo p : Bool)
    (sf : ScaleFactors) :
    ∀ (frames tss : List Timestep) (w : NCDFWriterState),
      (∀ ts ∈ frames, FrameConforms A vel fo p ts) →
      w.n_atoms = (A : Int) → w.convert_units = cu → w.scale_factors = sf →
      w.has_velocities = vel → w.has_forces = fo →
      w.trjfile = some (written_file tbl (A : Int) cu sf vel fo p tss) →
      w.periodic = some p → w.curr_frame = tss.length →
      ∃ w2, write_frames tbl w frames = .ok w2 ∧
        w2.n_atoms = (A : Int) ∧ w2.convert_units = cu ∧ w2.scale_factors = sf ∧
        w2.has_velocities = vel ∧ w2.has_forces = fo ∧
        w2.trjfile = some (written_file tbl (A : Int) cu sf vel fo p (tss ++ frames)) ∧
        w2.periodic = some p ∧ w2.curr_frame = (tss ++ frames).length
  | [], tss, w, hconf, h1, h2, h3, h4, h5, h6, h7, h8 => by
    refine ⟨w, ?_, h1, h2, h3, h4, h5, ?_, h7, ?_⟩
    · rw [write_frames]
    · rw [List.append_nil]
      exact h6
    · rw [List.append_nil]
      exact h8
  | ts :: rest, tss, w, hconf, h1, h2, h3, h4, h5, h6, h7, h8 => by
    obtain ⟨hA, hpos, hvs, hvl, hfs2, hfl, hds, hdl⟩ :=
      hconf ts (List.mem_cons_self ts rest)
    have hstep := write_next_timestep_written tbl w p tss ts
      (by rw [h1, h2, h3, h4, h5]; exact h6) h7 h8
      (fun hv => by rw [hvs, ← h4]; exact hv)
      (fun hf => by rw [hfs2, ← h5]; exact hf)
      (fun hp => by rw [hds, hp])
    rw [h1, h2, h3, h4, h5] at hstep
    obtain ⟨w2, hrest, hw2⟩ := write_frames_written tbl A cu vel fo p sf rest
      (tss ++ [ts])
      { n_atoms := (A : Int), convert_units := cu, remarks := w.remarks,
        first_frame := w.first_frame,
        trjfile := some (written_file tbl (A : Int) cu sf vel fo p (tss ++ [ts])),
        periodic := w.periodic, has_velocities := vel, has_forces := fo,
        scale_factors := sf, curr_frame := w.curr_frame + 1 }
      (fun t ht => hconf t (List.mem_cons_of_mem ts ht))
      rfl rfl rfl rfl rfl rfl h7 (by simp [h8])
    refine ⟨w2, ?_, hw2.1, hw2.2.1, hw2.2.2.1, hw2.2.2.2.1, hw2.2.2.2.2.1, ?_, 
      hw2.2.2.2.2.2.2.1, ?_⟩
    · rw [write_frames, write_next_frame,
        if_neg (not_not_intro (by rw [hA, h1] : (ts.n_atoms : Int) = w.n_atoms))]
      rw [h6]
      show (match write_next_timestep tbl w ts with
            | .error e => Except.error e
            | .ok w2 => write_frames tbl w2 rest) = _
      rw [hstep]
      exact hrest
    · have := hw2.2.2.2.2.2.1
      rw [this]
      simp
    · have := hw2.2.2.2.2.2.2.2
      rw [this]
      simp


/-! ## Reader-side round-trip lemmas -/

/-- The coordinates variable of a written container. -/
theorem written_lookup_coordinates (tbl : ConvTable) (nA : Int) (cu : Bool)
    (sf : ScaleFactors) (vel fo p : Bool) (tss : List Timestep) :
    lookup_variable (written_file tbl nA cu sf vel fo p tss).var_table "coordinates"
      = some ⟨some "angstrom", scale_attr sf.coordinates,
          tss.map (out_pos_slice tbl cu sf)⟩ := by
  simp [written_file, lookup_variable]

/-- The time variable of a written container. -/
theorem written_lookup_time (tbl : ConvTable) (nA : Int) (cu : Bool)
    (sf : ScaleFactors) (vel fo p : Bool) (tss : List Timestep) :
    lookup_variable (written_file tbl nA cu sf vel fo p tss).var_table "time"
      = some ⟨some "picosecond", scale_attr sf.time,
          tss.map (out_time_slice tbl cu sf)⟩ := by
  simp [written_file, lookup_variable]

/-- The velocities variable of a written container, present exactly when
configured. -/
theorem written_lookup_velocities (tbl : ConvTable) (nA : Int) (cu : Bool)
    (sf : ScaleFactors) (vel fo p : Bool) (tss : List Timestep) :
    lookup_variable (written_file tbl nA cu sf vel fo p tss).var_table "velocities"
      = (if vel then some ⟨some "angstrom/picosecond", scale_attr sf.velocities,
          tss.map (out_vel_slice tbl cu sf)⟩ else none) := by
  cases p <;> cases vel <;> cases fo <;> simp [written_file, lookup_variable]

/-- The forces variable of a written container, present exactly when
configured. -/
theorem written_lookup_forces (tbl : ConvTable) (nA : Int) (cu : Bool)
    (sf : ScaleFactors) (vel fo p : Bool) (tss : List Timestep) :
    lookup_variable (written_file tbl nA cu sf vel fo p tss).var_table "forces"
      = (if fo then some ⟨some "kilocalorie/mole/angstrom", scale_attr sf.forces,
          tss.map (out_force_slice tbl cu sf)⟩ else none) := by
  cases p <;> cases vel <;> cases fo <;> simp [written_file, lookup_variable]

/-- The cell-length variable of a written container, present exactly when
the schema is periodic. -/
theorem written_lookup_cell_lengths (tbl : ConvTable) (nA : Int) (cu : Bool)
    (sf : ScaleFactors) (vel fo p : Bool) (tss : List Timestep) :
    lookup_variable (written_file tbl nA cu sf vel fo p tss).var_table "cell_lengths"
      = (if p then some ⟨some "angstrom", scale_attr sf.cell_lengths,
          tss.map (out_cell_lengths_slice tbl cu sf)⟩ else none) := by
  cases p <;> cases vel <;> cases fo <;> simp [written_file, lookup_variable]

/-- The cell-angle variable of a written container, present exactly when
the schema is periodic. -/
theorem written_lookup_cell_angles (tbl : ConvTable) (nA : Int) (cu : Bool)
    (sf : ScaleFactors) (vel fo p : Bool) (tss : List Timestep) :
    lookup_variable (written_file tbl nA cu sf vel fo p tss).var_table "cell_angles"
      = (if p then some ⟨some "degree", scale_attr sf.cell_angles,
          tss.map (out_cell_angles_slice tbl cu sf)⟩ else none) := by
  cases p <;> cases vel <;> cases fo <;> simp [written_file, lookup_variable]

/-- The scale-discovery loop on an empty table. -/
theorem collect_nil (acc : ScaleFactors) :
    collect_scale_factors [] acc = .ok acc := rfl

/-- The scale-discovery loop over a known scalable variable. -/
theorem collect_cons_known (name : String) (u : Option String) (sc : Option ℚ)
    (fr : List (List ℚ)) (rest : List (String × NCDFVariable))
    (acc : ScaleFactors) (hk : known_scale_variable name = true) :
    collect_scale_factors ((name, ⟨u, sc, fr⟩) :: rest) acc
      = collect_scale_factors rest (applyAttr acc name sc) := by
  cases sc <;> simp [collect_scale_factors, applyAttr, hk]

/-- The scale-discovery loop skips a variable without the attribute. -/
theorem collect_cons_noattr (name : String) (u : Option String)
    (fr : List (List ℚ)) (rest : List (String × NCDFVariable))
    (acc : ScaleFactors) :
    collect_scale_factors ((name, ⟨u, none, fr⟩) :: rest) acc
      = collect_scale_factors rest acc := rfl

/-- The scale-discovery loop over a written container collects exactly the
attributes the writer attached. -/
theorem collect_written (tbl : ConvTable) (nA : Int) (cu : Bool)
    (sf : ScaleFactors) (vel fo p : Bool) (tss : List Timestep) :
    collect_scale_factors (written_file tbl nA cu sf vel fo p tss).var_table noScale
      = .ok (collected_sf sf vel fo p) := by
  cases p <;> cases vel <;> cases fo <;>
    simp [written_file, collected_sf, collect_cons_known, collect_cons_noattr,
      collect_nil, known_scale_variable]

theorem orElse_none_right {α : Type} (o : Option α) :
    (o.orElse fun _ => (none : Option α)) = o := by cases o <;> rfl

theorem scale_factor_of_applyAttr_other (acc : ScaleFactors)
    (name name2 : String) (sc : Option ℚ) (hne : name ≠ name2) :
    scale_factor_of (applyAttr acc name sc) name2 = scale_factor_of acc name2 := by
  cases sc with
  | none => rfl
  | some s =>
    show scale_factor_of (set_scale_factor acc name s) name2 = _
    rw [set_scale_factor]
    split_ifs with k1 k2 k3 k4 k5 k6
    all_goals try subst_vars
    all_goals simp only [scale_factor_of]
    all_goals first
      | rfl
      | (split_ifs <;> simp_all)

theorem scale_factor_of_applyAttr_same (acc : ScaleFactors) (name : String)
    (sc : Option ℚ) (hk : known_scale_variable name = true) :
    scale_factor_of (applyAttr acc name sc) name
      = sc.orElse (fun _ => scale_factor_of acc name) := by
  cases sc with
  | none => rfl
  | some s =>
    show scale_factor_of (set_scale_factor acc name s) name = some s
    rw [known_scale_variable] at hk
    simp only [Bool.or_eq_true, decide_eq_true_eq] at hk
    rcases hk with ((((h | h) | h) | h) | h) | h <;> subst h <;>
      simp [set_scale_factor, scale_factor_of]

theorem applyAttr_time (acc : ScaleFactors) (name : String) (sc : Option ℚ) :
    (applyAttr acc name sc).time
      = if name = "time" then sc.orElse (fun _ => acc.time) else acc.time := by
  cases sc with
  | none => simp [applyAttr, Option.orElse]
  | some s =>
    show (set_scale_factor acc name s).time = _
    rw [set_scale_factor]
    split_ifs <;> simp_all [Option.orElse]

theorem applyAttr_cell_lengths (acc : ScaleFactors) (name : String) (sc : Option ℚ) :
    (applyAttr acc name sc).cell_lengths
      = if name = "cell_lengths" then sc.orElse (fun _ => acc.cell_lengths)
        else acc.cell_lengths := by
  cases sc with
  | none => simp [applyAttr, Option.orElse]
  | some s =>
    show (set_scale_factor acc name s).cell_lengths = _
    rw [set_scale_factor]
    split_ifs <;> simp_all [Option.orElse]

theorem applyAttr_cell_angles (acc : ScaleFactors) (name : String) (sc : Option ℚ) :
    (applyAttr acc name sc).cell_angles
      = if name = "cell_angles" then sc.orElse (fun _ => acc.cell_angles)
        else acc.cell_angles := by
  cases sc with
  | none => simp [applyAttr, Option.orElse]
  | some s =>
    show (set_scale_factor acc name s).cell_angles = _
    rw [set_scale_factor]
    split_ifs <;> simp_all [Option.orElse]

theorem applyAttr_coordinates (acc : ScaleFactors) (name : String) (sc : Option ℚ) :
    (applyAttr acc name sc).coordinates
      = if name = "coordinates" then sc.orElse (fun _ => acc.coordinates)
        else acc.coordinates := by
  cases sc with
  | none => simp [applyAttr, Option.orElse]
  | some s =>
    show (set_scale_factor acc name s).coordinates = _
    rw [set_scale_factor]
    split_ifs <;> simp_all [Option.orElse]

theorem applyAttr_velocities (acc : ScaleFactors) (name : String) (sc : Option ℚ) :
    (applyAttr acc name sc).velocities
      = if name = "velocities" then sc.orElse (fun _ => acc.velocities)
        else acc.velocities := by
  cases sc with
  | none => simp [applyAttr, Option.orElse]
  | some s =>
    show (set_scale_factor acc name s).velocities = _
    rw [set_scale_factor]
    split_ifs <;> simp_all [Option.orElse]

theorem applyAttr_forces (acc : ScaleFactors) (name : String) (sc : Option ℚ) :
    (applyAttr acc name sc).forces
      = if name = "forces" then sc.orElse (fun _ => acc.forces)
        else acc.forces := by
  cases sc with
  | none => simp [applyAttr, Option.orElse]
  | some s =>
    show (set_scale_factor acc name s).forces = _
    rw [set_scale_factor]
    split_ifs <;> simp_all [Option.orElse]

theorem collected_scale_facts (sf : ScaleFactors) (vel fo p : Bool) :
    scale_factor_of (collected_sf sf vel fo p) "coordinates"
        = scale_attr sf.coordinates ∧
    scale_factor_of (collected_sf sf vel fo p) "time" = scale_attr sf.time ∧
    scale_factor_of (collected_sf sf vel fo p) "cell_lengths"
        = (if p then scale_attr sf.cell_lengths else none) ∧
    scale_factor_of (collected_sf sf vel fo p) "cell_angles"
        = (if p then scale_attr sf.cell_angles else none) ∧
    scale_factor_of (collected_sf sf vel fo p) "velocities"
        = (if vel then scale_attr sf.velocities else none) ∧
    scale_factor_of (collected_sf sf vel fo p) "forces"
        = (if fo then scale_attr sf.forces else none) := by
  cases p <;> cases vel <;> cases fo <;>
    refine ⟨?_, ?_, ?_, ?_, ?_, ?_⟩ <;>
    simp [collected_sf, scale_factor_of, applyAttr_time, applyAttr_cell_lengths,
      applyAttr_cell_angles, applyAttr_coordinates, applyAttr_velocities,
      applyAttr_forces, orElse_none_right, noScale]

theorem map_mul_div (f : ℚ) (hf : f ≠ 0) (xs : List ℚ) :
    (xs.map (fun x => x * f)).map (fun x => x / f) = xs := by
  rw [List.map_map]
  have hid : ∀ x : ℚ, x * f / f = x := fun x => mul_div_cancel_right₀ x hf
  simp [Function.comp_def, hid]

theorem fetch_written (st : NCDFReaderState) (name : String) (u : Option String)
    (attr : Option ℚ) (g : Timestep → List ℚ) (tss : List Timestep) (k : Nat)
    (ts : Timestep)
    (hlv : lookup_variable st.var_table name = some ⟨u, attr, tss.map g⟩)
    (hsf2 : scale_factor_of st.scale_factors name = attr)
    (hk : tss.get? k = some ts) :
    get_var_and_scale st name k = .ok (apply_read_scale attr (g ts)) := by
  rw [get_var_and_scale, hlv]
  simp only [List.get?_map, hk, Option.map_some']
  rw [hsf2]

theorem fetch_shaped_written (st : NCDFReaderState) (name : String)
    (u : Option String) (attr : Option ℚ) (g : Timestep → List ℚ)
    (tss : List Timestep) (k : Nat) (ts : Timestep) (n : Nat)
    (hlv : lookup_variable st.var_table name = some ⟨u, attr, tss.map g⟩)
    (hsf2 : scale_factor_of st.scale_factors name = attr)
    (hk : tss.get? k = some ts)
    (hlen : (apply_read_scale attr (g ts)).length = n) :
    fetch_shaped st name k n = .ok (apply_read_scale attr (g ts)) := by
  rw [fetch_shaped, fetch_written st name u attr g tss k ts hlv hsf2 hk]
  simp [Except.bind, hlen]

theorem bind_ok_eq {e a b : Type} (v : a) (f : a → Except e b) :
    (Except.ok v : Except e a).bind f = f v := rfl

theorem read_frame_written (tbl : ConvTable) (A : Nat) (cu vel fo p : Bool)
    (sf : ScaleFactors) (tss : List Timestep) (k : Nat) (ts : Timestep)
    (hk : tss.get? k = some ts)
    (hconf : FrameConforms A vel fo p ts)
    (hsf : ScaleFactorsPos sf)
    (hposF : tbl.posF ≠ 0) (htimeF : tbl.timeF ≠ 0)
    (hvelF : tbl.velF ≠ 0) (hforceF : tbl.forceF ≠ 0) :
    read_frame_nc tbl (written_reader tbl A cu sf vel fo p tss) k
      = .ok ({ written_reader tbl A cu sf vel fo p tss with current_frame := k },
             { n_atoms := A, pos := ts.pos, time := ts.time,
               velocities := if vel then ts.velocities else none,
               forces := if fo then ts.forces else none,
               dimensions := if p then ts.dimensions else none }) := by
  obtain ⟨hA, hpos, hvs, hvl, hfs2, hfl, hds, hdl⟩ := hconf
  obtain ⟨sft, sfcl, sfca, sfc, sfv, sff⟩ := hsf
  have hklt : k < tss.length := (List.get?_eq_some.mp hk).1
  have hfacts := collected_scale_facts sf vel fo p
  set st := written_reader tbl A cu sf vel fo p tss with hst
  have e1 : st.n_atoms = A := rfl
  have e3 : st.has_velocities = vel := rfl
  have e4 : st.has_forces = fo := rfl
  have e5 : st.periodic = p := rfl
  have e6 : st.convert_units = cu := rfl
  have e7 : st.var_table
      = (written_file tbl (A : Int) cu sf vel fo p tss).var_table := rfl
  have e8 : st.scale_factors = collected_sf sf vel fo p := rfl
  have hvgetD : vel = true → ts.velocities = some (ts.velocities.getD []) := by
    intro h
    cases hv2 : ts.velocities with
    | none => rw [hv2] at hvs; simp [h] at hvs
    | some v => rfl
  have hvlen : vel = true → (ts.velocities.getD []).length = 3 * A := by
    intro h
    cases hv2 : ts.velocities with
    | none => rw [hv2] at hvs; simp [h] at hvs
    | some v => exact hvl v hv2
  have hfgetD : fo = true → ts.forces = some (ts.forces.getD []) := by
    intro h
    cases hf3 : ts.forces with
    | none => rw [hf3] at hfs2; simp [h] at hfs2
    | some v => rfl
  have hflen : fo = true → (ts.forces.getD []).length = 3 * A := by
    intro h
    cases hf3 : ts.forces with
    | none => rw [hf3] at hfs2; simp [h] at hfs2
    | some v => exact hfl v hf3
  have hdgetD : p = true → ts.dimensions = some (ts.dimensions.getD []) := by
    intro h
    cases hd2 : ts.dimensions with
    | none => rw [hd2] at hds; simp [h] at hds
    | some d => rfl
  have hdim6 : p = true → (out_dims tbl cu ts).length = 6 := by
    intro h
    cases hd2 : ts.dimensions with
    | none => rw [hd2] at hds; simp [h] at hds
    | some d =>
      have h6 := hdl d hd2
      cases cu <;> simp [out_dims, hd2, convert_dimensions_to_unitcell, h6]
  have hposval : apply_read_scale (scale_attr sf.coordinates)
      (out_pos_slice tbl cu sf ts)
      = (if cu then ts.pos.map (fun x => x * tbl.posF) else ts.pos) := by
    rw [out_pos_slice, apply_scale_roundtrip _ sfc]
  have hc : fetch_shaped st "coordinates" k (3 * A)
      = .ok (if cu then ts.pos.map (fun x => x * tbl.posF) else ts.pos) := by
    rw [← hposval]
    refine fetch_shaped_written st "coordinates" (some "angstrom")
      (scale_attr sf.coordinates) (out_pos_slice tbl cu sf) tss k ts (3 * A)
      ?_ ?_ hk ?_
    · rw [e7]; exact written_lookup_coordinates tbl (A : Int) cu sf vel fo p tss
    · rw [e8]; exact hfacts.1
    · rw [hposval]
      cases cu <;> simp [hpos]
  have htimeval : apply_read_scale (scale_attr sf.time)
      (out_time_slice tbl cu sf ts)
      = [if cu then ts.time * tbl.timeF else ts.time] := by
    rw [out_time_slice, apply_scale_roundtrip _ sft]
  have ht : get_var_and_scale st "time" k
      = .ok [if cu then ts.time * tbl.timeF else ts.time] := by
    rw [← htimeval]
    refine fetch_written st "time" (some "picosecond")
      (scale_attr sf.time) (out_time_slice tbl cu sf) tss k ts ?_ ?_ hk
    · rw [e7]; exact written_lookup_time tbl (A : Int) cu sf vel fo p tss
    · rw [e8]; exact hfacts.2.1
  have hvelval : apply_read_scale (scale_attr sf.velocities)
      (out_vel_slice tbl cu sf ts)
      = (if cu then (ts.velocities.getD []).map (fun x => x * tbl.velF)
         else ts.velocities.getD []) := by
    rw [out_vel_slice, apply_scale_roundtrip _ sfv]
  have hvopt : (if st.has_velocities then
        (fetch_shaped st "velocities" k (3 * A)).map some
      else .ok none : Except NCDFErr (Option (List ℚ)))
      = .ok (if vel then
          some (if cu then (ts.velocities.getD []).map (fun x => x * tbl.velF)
                else ts.velocities.getD [])
          else none) := by
    rw [e3]
    cases hvv : vel with
    | false => rfl
    | true =>
      have hv : fetch_shaped st "velocities" k (3 * A)
          = .ok (if cu then (ts.velocities.getD []).map (fun x => x * tbl.velF)
                 else ts.velocities.getD []) := by
        rw [← hvelval]
        refine fetch_shaped_written st "velocities" (some "angstrom/picosecond")
          (scale_attr sf.velocities) (out_vel_slice tbl cu sf) tss k ts (3 * A)
          ?_ ?_ hk ?_
        · rw [e7]
          simpa [hvv] using written_lookup_velocities tbl (A : Int) cu sf vel fo p tss
        · rw [e8]
          simpa [hvv] using hfacts.2.2.2.2.1
        · rw [hvelval]
          cases cu <;> simp [hvlen hvv]
      rw [hv]
      rfl
  have hforval : apply_read_scale (scale_attr sf.forces)
      (out_force_slice tbl cu sf ts)
      = (if cu then (ts.forces.getD []).map (fun x => x * tbl.forceF)
         else ts.forces.getD []) := by
    rw [out_force_slice, apply_scale_roundtrip _ sff]
  have hfopt : (if st.has_forces then
        (fetch_shaped st "forces" k (3 * A)).map some
      else .ok none : Except NCDFErr (Option (List ℚ)))
      = .ok (if fo then
          some (if cu then (ts.forces.getD []).map (fun x => x * tbl.forceF)
                else ts.forces.getD [])
          else none) := by
    rw [e4]
    cases hff : fo with
    | false => rfl
    | true =>
      have hf4 : fetch_shaped st "forces" k (3 * A)
          = .ok (if cu then (ts.forces.getD []).map (fun x => x * tbl.forceF)
                 else ts.forces.getD []) := by
        rw [← hforval]
        refine fetch_shaped_written st "forces"
          (some "kilocalorie/mole/angstrom")
          (scale_attr sf.forces) (out_force_slice tbl cu sf) tss k ts (3 * A)
          ?_ ?_ hk ?_
        · rw [e7]
          simpa [hff] using written_lookup_forces tbl (A : Int) cu sf vel fo p tss
        · rw [e8]
          simpa [hff] using hfacts.2.2.2.2.2
        · rw [hforval]
          cases cu <;> simp [hflen hff]
      rw [hf4]
      rfl
  have hcellval1 : apply_read_scale (scale_attr sf.cell_lengths)
      (out_cell_lengths_slice tbl cu sf ts) = (out_dims tbl cu ts).take 3 := by
    rw [out_cell_lengths_slice, apply_scale_roundtrip _ sfcl]
  have hcellval2 : apply_read_scale (scale_attr sf.cell_angles)
      (out_cell_angles_slice tbl cu sf ts) = (out_dims tbl cu ts).drop 3 := by
    rw [out_cell_angles_slice, apply_scale_roundtrip _ sfca]
  have hcellopt : (if st.periodic then
        (fetch_shaped st "cell_lengths" k 3).bind fun lens =>
        (fetch_shaped st "cell_angles" k 3).map fun angs => some (lens ++ angs)
      else .ok none : Except NCDFErr (Option (List ℚ)))
      = .ok (if p then some (out_dims tbl cu ts) else none) := by
    rw [e5]
    cases hpp : p with
    | false => rfl
    | true =>
      have hl : fetch_shaped st "cell_lengths" k 3
          = .ok ((out_dims tbl cu ts).take 3) := by
        rw [← hcellval1]
        refine fetch_shaped_written st "cell_lengths" (some "angstrom")
          (scale_attr sf.cell_lengths) (out_cell_lengths_slice tbl cu sf)
          tss k ts 3 ?_ ?_ hk ?_
        · rw [e7]
          simpa [hpp] using written_lookup_cell_lengths tbl (A : Int) cu sf vel fo p tss
        · rw [e8]
          simpa [hpp] using hfacts.2.2.1
        · rw [hcellval1]
          simp [hdim6 hpp]
      have ha : fetch_shaped st "cell_angles" k 3
          = .ok ((out_dims tbl cu ts).drop 3) := by
        rw [← hcellval2]
        refine fetch_shaped_written st "cell_angles" (some "degree")
          (scale_attr sf.cell_angles) (out_cell_angles_slice tbl cu sf)
          tss k ts 3 ?_ ?_ hk ?_
        · rw [e7]
          simpa [hpp] using written_lookup_cell_angles tbl (A : Int) cu sf vel fo p tss
        · rw [e8]
          simpa [hpp] using hfacts.2.2.2.1
        · rw [hcellval2]
          simp [hdim6 hpp]
      rw [hl]
      simp only [Except.bind]
      rw [ha]
      simp only [Except.map]
      rw [List.take_append_drop]
      simp
  rw [read_frame_nc]
  rw [if_neg (show ¬ (st.n_frames ≤ k) from by
    have hn : st.n_frames = tss.length := rfl
    omega)]
  rw [e1]
  rw [hc, bind_ok_eq]
  try simp only []
  rw [ht, bind_ok_eq]
  try simp only []
  try rw [bind_ok_eq]
  try simp only []
  rw [hvopt, bind_ok_eq]
  try simp only []
  rw [hfopt, bind_ok_eq]
  try simp only []
  rw [hcellopt, bind_ok_eq]
  try simp only []
  rw [e6]
  refine congrArg Except.ok (Prod.ext rfl ?_)
  cases cu with
  | false =>
    cases hv2 : ts.velocities <;> cases hf3 : ts.forces <;>
      cases hd2 : ts.dimensions <;>
      simp [← hvs, ← hfs2, ← hds, hv2, hf3, hd2, out_dims]
  | true =>
    cases hv2 : ts.velocities <;> cases hf3 : ts.forces <;>
      cases hd2 : ts.dimensions <;>
      simp [← hvs, ← hfs2, ← hds, hv2, hf3, hd2, out_dims,
        convert_dimensions_to_unitcell, hdl, List.take_left', List.drop_left',
        List.take_append_drop, map_mul_div _ hposF, map_mul_div _ hvelF,
        map_mul_div _ hforceF, mul_div_cancel_right₀ _ htimeF]

theorem open_body_written (tbl : ConvTable) (A : Nat) (cu vel fo p : Bool)
    (sf : ScaleFactors) (tss : List Timestep) (ts0 : Timestep)
    (h0 : tss.get? 0 = some ts0)
    (hconf : FrameConforms A vel fo p ts0)
    (hsf : ScaleFactorsPos sf)
    (hposF : tbl.posF ≠ 0) (htimeF : tbl.timeF ≠ 0)
    (hvelF : tbl.velF ≠ 0) (hforceF : tbl.forceF ≠ 0) :
    open_body tbl (written_file tbl (A : Int) cu sf vel fo p tss) none cu
      = .ok (written_reader tbl A cu sf vel fo p tss, []) := by
  have h1 : require_version_byte (written_file tbl (A : Int) cu sf vel fo p tss)
      = .ok () := rfl
  have h2 : require_spatial (written_file tbl (A : Int) cu sf vel fo p tss)
      = .ok 3 := rfl
  have h3 : require_atom (written_file tbl (A : Int) cu sf vel fo p tss) none
      = .ok A := by
    simp [require_atom, written_file]
  have h4 : require_frame_dim (written_file tbl (A : Int) cu sf vel fo p tss)
      = .ok tss.length := by
    simp [require_frame_dim, written_file, lookup_variable]
  have h5 : variable_units
      (written_file tbl (A : Int) cu sf vel fo p tss).var_table "time"
      = .ok "picosecond" := by
    simp [variable_units, written_lookup_time]
  have h6 : verify_units "picosecond" "picosecond" = .ok () := rfl
  have h7 : variable_units
      (written_file tbl (A : Int) cu sf vel fo p tss).var_table "coordinates"
      = .ok "angstrom" := by
    simp [variable_units, written_lookup_coordinates]
  have h8 : verify_units "angstrom" "angstrom" = .ok () := rfl
  have h9 := collect_written tbl (A : Int) cu sf vel fo p tss
  have h10 : (lookup_variable
      (written_file tbl (A : Int) cu sf vel fo p tss).var_table
      "velocities").isSome = vel := by
    rw [written_lookup_velocities]
    cases vel <;> simp
  have h11 : (lookup_variable
      (written_file tbl (A : Int) cu sf vel fo p tss).var_table
      "forces").isSome = fo := by
    rw [written_lookup_forces]
    cases fo <;> simp
  have h12 : (lookup_variable
      (written_file tbl (A : Int) cu sf vel fo p tss).var_table
      "cell_lengths").isSome = p := by
    rw [written_lookup_cell_lengths]
    cases p <;> simp
  have h13 : check_optional_units
      (written_file tbl (A : Int) cu sf vel fo p tss).var_table "velocities"
      "angstrom/picosecond" vel = .ok () := by
    cases hvv : vel with
    | false => rfl
    | true =>
      simp [check_optional_units, variable_units, written_lookup_velocities,
        verify_units]
  have h14 : check_optional_units
      (written_file tbl (A : Int) cu sf vel fo p tss).var_table "forces"
      "kilocalorie/mole/angstrom" fo = .ok () := by
    cases hff : fo with
    | false => rfl
    | true =>
      simp [check_optional_units, variable_units, written_lookup_forces,
        verify_units]
  have h15 : check_optional_units
      (written_file tbl (A : Int) cu sf vel fo p tss).var_table "cell_lengths"
      "angstrom" p = .ok () := by
    cases hpp : p with
    | false => rfl
    | true =>
      simp [check_optional_units, variable_units, written_lookup_cell_lengths,
        verify_units]
  have h16 : check_optional_units
      (written_file tbl (A : Int) cu sf vel fo p tss).var_table "cell_angles"
      "degree" p = .ok () := by
    cases hpp : p with
    | false => rfl
    | true =>
      simp [check_optional_units, variable_units, written_lookup_cell_angles,
        verify_units]
  rw [open_body]
  try simp only []
  rw [h1, bind_ok_eq]
  try simp only []
  rw [h2, bind_ok_eq]
  try simp only []
  rw [h3, bind_ok_eq]
  try simp only []
  rw [h4, bind_ok_eq]
  try simp only []
  rw [h5, bind_ok_eq]
  try simp only []
  rw [h6, bind_ok_eq]
  try simp only []
  rw [h7, bind_ok_eq]
  try simp only []
  rw [h8, bind_ok_eq]
  try simp only []
  rw [h9, bind_ok_eq]
  try simp only []
  rw [h10, h11, h12]
  rw [h13, bind_ok_eq]
  try simp only []
  rw [h14, bind_ok_eq]
  try simp only []
  rw [h15, bind_ok_eq]
  try simp only []
  rw [h16, bind_ok_eq]
  try simp only []
  change (read_frame_nc tbl (written_reader tbl A cu sf vel fo p tss) 0).bind
      (fun q => Except.ok (q.1, ([] : List String)))
    = Except.ok (written_reader tbl A cu sf vel fo p tss, ([] : List String))
  rw [read_frame_written tbl A cu vel fo p sf tss 0 ts0 h0 hconf hsf hposF
    htimeF hvelF hforceF, bind_ok_eq]
  rfl

theorem write_next_frame_first (tbl : ConvTable) (A : Nat) (cu vel fo p : Bool)
    (sf : ScaleFactors) (w : NCDFWriterState) (ts : Timestep)
    (hconf : FrameConforms A vel fo p ts)
    (h1 : w.n_atoms = (A : Int)) (h2 : w.convert_units = cu)
    (h3 : w.scale_factors = sf) (h4 : w.has_velocities = vel)
    (h5 : w.has_forces = fo) (h6 : w.trjfile = none)
    (h7 : w.first_frame = true) (h8 : w.curr_frame = 0) :
    write_next_frame tbl w ts = .ok
      { w with
        first_frame := false
        trjfile := some (written_file tbl (A : Int) cu sf vel fo p [ts])
        periodic := some p
        curr_frame := w.curr_frame + 1 } := by
  obtain ⟨hA, hpos, hvs, hvl, hfs2, hfl, hds, hdl⟩ := hconf
  rw [write_next_frame]
  rw [if_neg (by rw [hA, h1]; simp)]
  rw [h6]
  try simp only []
  rw [hds]
  have hinit := init_netcdf_written tbl w p h7
  rw [hinit]
  try simp only []
  rw [write_next_timestep_written tbl
    { w with
      first_frame := false
      trjfile := some (written_file tbl w.n_atoms w.convert_units
        w.scale_factors w.has_velocities w.has_forces p [])
      periodic := some p } p [] ts rfl rfl h8
    (fun hv => by rw [hvs, ← h4]; exact hv)
    (fun hf2 => by rw [hfs2, ← h5]; exact hf2)
    (fun hp => by rw [hds, hp])]
  simp only [h1, h2, h3, h4, h5, List.nil_append]

theorem write_frames_start (tbl : ConvTable) (A : Nat) (cu vel fo p : Bool)
    (sf : ScaleFactors) (w : NCDFWriterState) (frames : List Timestep)
    (hconf : ∀ ts ∈ frames, FrameConforms A vel fo p ts)
    (h1 : w.n_atoms = (A : Int)) (h2 : w.convert_units = cu)
    (h3 : w.scale_factors = sf) (h4 : w.has_velocities = vel)
    (h5 : w.has_forces = fo) (h6 : w.trjfile = none)
    (h7 : w.first_frame = true) (h8 : w.curr_frame = 0)
    (hfr : frames ≠ []) :
    ∃ w1, write_frames tbl w frames = .ok w1 ∧
      w1.trjfile = some (written_file tbl (A : Int) cu sf vel fo p frames) := by
  match frames, hfr with
  | ts1 :: rest, _ =>
    have hfirst := write_next_frame_first tbl A cu vel fo p sf w ts1
      (hconf ts1 (List.mem_cons_self ts1 rest)) h1 h2 h3 h4 h5 h6 h7 h8
    obtain ⟨w2, hrest, hf1, hf2, hf3, hf4, hf5, hf6, hf7, hf8⟩ :=
      write_frames_written tbl A cu vel fo p sf rest [ts1]
        { w with
          first_frame := false
          trjfile := some (written_file tbl (A : Int) cu sf vel fo p [ts1])
          periodic := some p
          curr_frame := w.curr_frame + 1 }
        (fun ts hts => hconf ts (List.mem_cons_of_mem ts1 hts))
        h1 h2 h3 h4 h5 rfl rfl (by show w.curr_frame + 1 = 1; rw [h8])
    refine ⟨w2, ?_, hf6⟩
    rw [write_frames]
    rw [hfirst]
    try simp only []
    exact hrest

theorem openNCDF_of_body (tbl : ConvTable) (c : NCDFFile) (n : Option Nat)
    (cu : Bool) (st : NCDFReaderState) (ws : List String)
    (hconv : c.conventions = some "AMBER")
    (hcv : c.conventionVersion = some "1.0")
    (hob : open_body tbl c n cu = .ok (st, ws)) :
    openNCDF tbl c n cu = .ok (st, ws) := by
  rw [openNCDF, hconv]
  simp [show has_amber_token "AMBER" = true from rfl, hcv, hob]

/-- Claim C1: writing any sequence of conforming frame buffers (with or
without velocities, forces and a periodic box, and with each scale factor
either set or absent) with the NCDF writer and then reading the resulting
container back with the NCDF reader reproduces the positions, time,
velocities, forces and box values of every frame exactly; in this exact
arithmetic the round trip through a scale factor is the identity, which
subsumes the one-quantization-step bound of the floating-point code. -/
theorem ncdf_write_read_roundtrip (tbl : ConvTable) (A : Nat)
    (cu vel fo p : Bool) (sf : ScaleFactors) (remarks : Option String)
    (frames : List Timestep)
    (hA : 0 < A) (hfr : frames ≠ [])
    (hconf : ∀ ts ∈ frames, FrameConforms A vel fo p ts)
    (hsf : ScaleFactorsPos sf)
    (hposF : tbl.posF ≠ 0) (htimeF : tbl.timeF ≠ 0)
    (hvelF : tbl.velF ≠ 0) (hforceF : tbl.forceF ≠ 0) :
    ∃ w0 w1 f st,
      mkNCDFWriter (A : Int) remarks cu vel fo sf = .ok w0 ∧
      write_frames tbl w0 frames = .ok w1 ∧
      w1.trjfile = some f ∧
      openNCDF tbl f none cu = .ok (st, []) ∧
      ∀ k ts, frames.get? k = some ts →
        ∃ st2, read_frame_nc tbl st k = .ok (st2,
          { n_atoms := A, pos := ts.pos, time := ts.time,
            velocities := if vel then ts.velocities else none,
            forces := if fo then ts.forces else none,
            dimensions := if p then ts.dimensions else none }) := by
  have hAne : (A : Int) ≠ 0 := by exact_mod_cast hA.ne'
  have hmk : mkNCDFWriter (A : Int) remarks cu vel fo sf
      = .ok { n_atoms := (A : Int), convert_units := cu,
              remarks := remarks.getD
                "AMBER NetCDF format (MDAnalysis.coordinates.trj.NCDFWriter)",
              first_frame := true, trjfile := none, periodic := none,
              has_velocities := vel, has_forces := fo,
              scale_factors := sf, curr_frame := 0 } := by
    rw [mkNCDFWriter, if_neg hAne]
  obtain ⟨w1, hwr, htrj⟩ := write_frames_start tbl A cu vel fo p sf
    { n_atoms := (A : Int), convert_units := cu,
      remarks := remarks.getD
        "AMBER NetCDF format (MDAnalysis.coordinates.trj.NCDFWriter)",
      first_frame := true, trjfile := none, periodic := none,
      has_velocities := vel, has_forces := fo,
      scale_factors := sf, curr_frame := 0 } frames hconf
    rfl rfl rfl rfl rfl rfl rfl rfl hfr
  obtain ⟨ts0, h0⟩ : ∃ ts0, frames.get? 0 = some ts0 := by
    cases frames with
    | nil => exact absurd rfl hfr
    | cons a l => exact ⟨a, rfl⟩
  have hob := open_body_written tbl A cu vel fo p sf frames ts0 h0
    (hconf ts0 (List.get?_mem h0)) hsf hposF htimeF hvelF hforceF
  have hopen := openNCDF_of_body tbl
    (written_file tbl (A : Int) cu sf vel fo p frames) none cu
    (written_reader tbl A cu sf vel fo p frames) [] rfl rfl hob
  refine ⟨_, w1, written_file tbl (A : Int) cu sf vel fo p frames,
    written_reader tbl A cu sf vel fo p frames, hmk, hwr, htrj, hopen, ?_⟩
  intro k ts hk
  exact ⟨_, read_frame_written tbl A cu vel fo p sf frames k ts hk
    (hconf ts (List.get?_mem hk)) hsf hposF htimeF hvelF hforceF⟩

/-- A concrete one-atom, one-frame round trip through the writer and the
reader, every hypothesis of the round-trip theorem discharged at this
input. -/
theorem ncdf_write_read_roundtrip_witness :
    (0 < 1 ∧ ([tsSimple] : List Timestep) ≠ [] ∧
     (∀ ts ∈ ([tsSimple] : List Timestep), FrameConforms 1 false false false ts) ∧
     ScaleFactorsPos noScale) ∧
    (∃ w0 w1 f st,
      mkNCDFWriter ((1 : Nat) : Int) none false false false noScale = .ok w0 ∧
      write_frames tblOne w0 [tsSimple] = .ok w1 ∧
      w1.trjfile = some f ∧
      openNCDF tblOne f none false = .ok (st, []) ∧
      ∀ k ts, ([tsSimple] : List Timestep).get? k = some ts →
        ∃ st2, read_frame_nc tblOne st k = .ok (st2,
          { n_atoms := 1, pos := ts.pos, time := ts.time,
            velocities := if false then ts.velocities else none,
            forces := if false then ts.forces else none,
            dimensions := if false then ts.dimensions else none })) :=
  ⟨⟨by decide, List.cons_ne_nil _ _,
    by
      intro ts hts
      rw [List.mem_singleton] at hts
      subst hts
      refine ⟨rfl, rfl, rfl, ?_, rfl, ?_, rfl, ?_⟩ <;> intro v h <;>
        simp [tsSimple] at h,
    by
      refine ⟨?_, ?_, ?_, ?_, ?_, ?_⟩ <;> intro v h <;> simp [noScale] at h⟩,
   ncdf_write_read_roundtrip tblOne 1 false false false false noScale none
    [tsSimple] (by decide) (List.cons_ne_nil _ _)
    (by
      intro ts hts
      rw [List.mem_singleton] at hts
      subst hts
      refine ⟨rfl, rfl, rfl, ?_, rfl, ?_, rfl, ?_⟩ <;> intro v h <;>
        simp [tsSimple] at h)
    (by
      refine ⟨?_, ?_, ?_, ?_, ?_, ?_⟩ <;> intro v h <;> simp [noScale] at h)
    one_ne_zero one_ne_zero one_ne_zero one_ne_zero⟩

end TRJSpec
